import Mathlib

/-!
Shallow embedding of the extension-generator repository
(savitharaghunathan/extension-generator), centred on `src/lib/generator.ts`
(the template-driven file emitter and the seven repository patch strategies),
together with `src/lib/utils.ts` and the data model of `src/types/config.ts`.

Modelling conventions:
* The Node filesystem is a finite map from paths to file contents plus a set
  of created directories; the asynchronous effects of the generator become a
  state-and-exception monad `M` over that filesystem (a thrown JS exception is
  `Except.error`, and the filesystem state persists across a throw, as writes
  already performed are not rolled back by an exception).
* `JSON.parse` / `JSON.stringify(v, null, 2)` of the JS runtime are embedded
  as an executable recursive-descent parser and 2-space-indent printer over an
  inductive `Json` value type (integers stand in for JS numbers; the inputs
  exercised by the repository are integer-free).
* The Handlebars engine is embedded in its default (non-strict) configuration
  for simple `\x7b\x7bname\x7d\x7d` placeholders: a placeholder is replaced by
  the context value when the context resolves the name and by the empty string
  otherwise; a placeholder left unclosed is a compile error.
* The JS regular-expression replacements of `generator.ts` use fixed anchors,
  so each is embedded as a first-occurrence substring replacement; the
  trailing-comma strip of `parseJsonc` (a global replace of `,(\s*[}\]])` by
  the captured group) is embedded as a right fold that drops a comma exactly
  when it is followed by optional whitespace and a closing brace or bracket,
  matching the left-to-right non-overlapping scan of the JS engine.
-/

set_option maxRecDepth 1000000

/-! ## Generic string and list helpers (JS string primitives) -/

/-- Whitespace class of the JS `\s` regex escape (ASCII part). -/
def isJsWs (c : Char) : Bool :=
  c = ' ' ∨ c = '\n' ∨ c = '\t' ∨ c = '\r'

/-- Substring occurrence test over char lists. -/
def listInfix (pat : List Char) : List Char → Bool
  | [] => pat = []
  | c :: rest => pat.isPrefixOf (c :: rest) || listInfix pat rest

/-- JS `String.prototype.includes`: substring test. -/
def jsIncludes (s sub : String) : Bool :=
  listInfix sub.data s.data

/-- First-occurrence replacement over char lists: the embedding of a JS
`String.prototype.replace` with a non-global regex whose pattern is the fixed
string `pat`; when the pattern does not occur the input is unchanged. -/
def replaceFirstAux (pat repl : List Char) : List Char → List Char
  | [] => if pat = [] then repl else []
  | c :: rest =>
    if pat.isPrefixOf (c :: rest) then repl ++ (c :: rest).drop pat.length
    else c :: replaceFirstAux pat repl rest

/-- String version of `replaceFirstAux`. -/
def replaceFirst (s pat repl : String) : String :=
  ⟨replaceFirstAux pat.data repl.data s.data⟩

/-- An apostrophe character, built numerically. -/
def apos : String := (Char.ofNat 39).toString

/-- Lexicographic comparison of char lists (the order JS `Array.sort` uses on
strings: compare code units left to right). -/
def charListLe : List Char → List Char → Bool
  | [], _ => true
  | _ :: _, [] => false
  | a :: as, b :: bs =>
    if a < b then true else if b < a then false else charListLe as bs

/-- String comparison used by the default JS sort comparator. -/
def jsStrLe (a b : String) : Bool := charListLe a.data b.data

/-- Insert into a sorted list (stable: placed after equal elements). -/
def insertSorted (le : α → α → Bool) (x : α) : List α → List α
  | [] => [x]
  | y :: ys => if le y x then y :: insertSorted le x ys else x :: y :: ys

/-- Stable insertion sort, the embedding of JS `Array.prototype.sort` with the
default comparator (restricted to the string elements the generator sorts). -/
def stableSort (le : α → α → Bool) : List α → List α
  | [] => []
  | x :: xs => insertSorted le x (stableSort le xs)

/-! ## utils.ts -/

/-- From `src/lib/utils.ts`: capitalize the first letter. -/
def capitalize (str : String) : String :=
  match str.data with
  | [] => str
  | c :: rest => ⟨c.toUpper :: rest⟩

/-- Separator class of the JS split regex `[-_\s]+` in `toPascalCase`. -/
def isPascalSep (c : Char) : Bool :=
  c = '-' ∨ c = '_' ∨ isJsWs c

/-- Split a char list at every separator (like core `String.split`). -/
def splitChars (p : Char → Bool) : List Char → List (List Char)
  | [] => [[]]
  | c :: rest =>
    if p c then [] :: splitChars p rest
    else
      match splitChars p rest with
      | [] => [[c]]
      | w :: ws => (c :: w) :: ws

/-- Character-wise lower-casing (JS `toLowerCase`, ASCII range). -/
def toLowerStr (s : String) : String := ⟨s.data.map Char.toLower⟩

/-- From `src/lib/utils.ts`: convert to PascalCase.  The JS code splits on
runs of separators; splitting on single separators instead yields extra empty
words, which `capitalize` maps to the empty string, so the joined result is
identical. -/
def toPascalCase (str : String) : String :=
  String.join (((splitChars isPascalSep str.data).map (fun w => ⟨w⟩)).map
    (fun w => capitalize (toLowerStr w)))

/-- From `src/lib/utils.ts`: convert to camelCase. -/
def toCamelCase (str : String) : String :=
  match (toPascalCase str).data with
  | [] => toPascalCase str
  | c :: rest => ⟨c.toLower :: rest⟩

/-! ## The trailing-comma strip of `parseJsonc`

`generator.ts` line 18: `content.replace(/,(\s*[}\]])/g, "$1")`.
The JS engine scans left to right and removes each comma that is immediately
followed by optional whitespace and a closing `\x7d` or `]`, resuming the scan
after the bracket of a match.  Folding from the right with a flag recording
whether the text to the right of the cursor begins with optional whitespace
followed by a closing bracket reproduces that scan: a comma is dropped exactly
when the flag holds, and dropping resets the flag (the bracket of the match is
spent, as in the JS resumption). -/

/-- One step of the right fold embedding the trailing-comma strip. -/
def stripStep (c : Char) (acc : List Char × Bool) : List Char × Bool :=
  if c = ',' ∧ acc.2 then (acc.1, false)
  else if c = '}' ∨ c = ']' then (c :: acc.1, true)
  else if isJsWs c then (c :: acc.1, acc.2)
  else (c :: acc.1, false)

/-- The comma strip of `parseJsonc` (`generator.ts` lines 16–20). -/
def stripTrailingCommas (content : String) : String :=
  ⟨(content.data.foldr stripStep ([], false)).1⟩

/-! ## The JSON value model and `JSON.stringify(v, null, 2)` -/

/-- JSON values as produced by `JSON.parse` (integers stand in for numbers). -/
inductive Json where
  | null : Json
  | bool (b : Bool) : Json
  | num (n : Int) : Json
  | str (s : String) : Json
  | arr (elems : List Json) : Json
  | obj (fields : List (String × Json)) : Json
deriving Repr

/-- Field lookup on an object (JS property access; `none` on non-objects,
matching the `undefined` that optional chaining propagates). -/
def Json.getField : Json → String → Option Json
  | .obj kvs, k => kvs.lookup k
  | _, _ => none

/-- Assign a field of an object: replace in place when the key exists,
append otherwise (JS property-assignment order semantics). -/
def setFieldList (kvs : List (String × Json)) (k : String) (v : Json) :
    List (String × Json) :=
  match kvs with
  | [] => [(k, v)]
  | (k', v') :: rest =>
    if k' = k then (k', v) :: rest else (k', v') :: setFieldList rest k v

/-- Field assignment on a JSON value (identity on non-objects; the generator
only assigns into objects). -/
def Json.setField : Json → String → Json → Json
  | .obj kvs, k, v => .obj (setFieldList kvs k v)
  | j, _, _ => j

/-- JS truthiness of a JSON value. -/
def jsTruthy : Json → Bool
  | .null => false
  | .bool b => b
  | .num n => n ≠ 0
  | .str s => s ≠ ""
  | .arr _ => true
  | .obj _ => true

/-- Escape one character as inside a JSON string literal. -/
def escapeChar (c : Char) : List Char :=
  if c = '"' then ['\\', '"']
  else if c = '\\' then ['\\', '\\']
  else if c = '\n' then ['\\', 'n']
  else if c = '\t' then ['\\', 't']
  else if c = '\r' then ['\\', 'r']
  else [c]

/-- Escape a string as inside a JSON string literal. -/
def escapeString (s : String) : String :=
  ⟨s.data.flatMap escapeChar⟩

/-- Indentation used by `JSON.stringify(v, null, 2)`: two spaces per level. -/
def jsonInd (d : Nat) : String := ⟨List.replicate (2 * d) ' '⟩

/-- Array elements of `JSON.stringify(v, null, 2)`, one per line at depth
`d`, comma-separated; the element printer is passed in, keeping the list
recursion structural. -/
def stringifyItemsWith (f : Json → Nat → String) : List Json → Nat → String
  | [], _ => ""
  | [x], d => jsonInd d ++ f x d
  | x :: y :: xs, d => jsonInd d ++ f x d ++ ",\n" ++ stringifyItemsWith f (y :: xs) d

/-- Object fields of `JSON.stringify(v, null, 2)`, one per line at depth `d`,
comma-separated. -/
def stringifyFieldsWith (f : Json → Nat → String) :
    List (String × Json) → Nat → String
  | [], _ => ""
  | [(k, v)], d => jsonInd d ++ "\"" ++ escapeString k ++ "\": " ++ f v d
  | (k, v) :: kv :: kvs, d =>
    jsonInd d ++ "\"" ++ escapeString k ++ "\": " ++ f v d ++ ",\n" ++
      stringifyFieldsWith f (kv :: kvs) d

/-- `JSON.stringify(v, null, 2)` at nesting depth `d`, with a fuel bound on
the nesting depth (structural recursion on the fuel, so that the kernel can
evaluate it; the wrapper supplies fuel far beyond any depth the generator or
the JS runtime itself can process). -/
def stringifyVF : Nat → Json → Nat → String
  | 0, _, _ => ""
  | fuel + 1, v, d =>
    match v with
    | .null => "null"
    | .bool true => "true"
    | .bool false => "false"
    | .num n => toString n
    | .str s => "\"" ++ escapeString s ++ "\""
    | .arr [] => "[]"
    | .arr (x :: xs) =>
      "[\n" ++ stringifyItemsWith (stringifyVF fuel) (x :: xs) (d + 1) ++ "\n" ++
        jsonInd d ++ "]"
    | .obj [] => "\x7b\x7d"
    | .obj (kv :: kvs) =>
      "\x7b\n" ++ stringifyFieldsWith (stringifyVF fuel) (kv :: kvs) (d + 1) ++ "\n" ++
        jsonInd d ++ "\x7d"

/-- Top-level `JSON.stringify(v, null, 2)`.  The fuel 1000 bounds only the
nesting depth; no value the embedded generator builds or parses approaches
it (the JS runtime overflows its stack far earlier). -/
def jsonStringify (v : Json) : String := stringifyVF 1000 v 0

/-! ## `JSON.parse` (recursive descent) -/

/-- Skip JSON whitespace. -/
def skipWs : List Char → List Char
  | [] => []
  | c :: rest => if isJsWs c then skipWs rest else c :: rest

/-- Unescape one character of a JSON string escape sequence. -/
def unescapeChar (c : Char) : Option Char :=
  if c = '"' then some '"'
  else if c = '\\' then some '\\'
  else if c = '/' then some '/'
  else if c = 'n' then some '\n'
  else if c = 't' then some '\t'
  else if c = 'r' then some '\r'
  else none

/-- Parse the body of a JSON string literal, after the opening quote; returns
the decoded characters and the input after the closing quote. -/
def parseStringBody : List Char → Option (List Char × List Char)
  | [] => none
  | c :: rest =>
    if c = '"' then some ([], rest)
    else if c = '\\' then
      match rest with
      | [] => none
      | e :: rest2 =>
        match unescapeChar e with
        | none => none
        | some u => (parseStringBody rest2).map (fun p => (u :: p.1, p.2))
    else (parseStringBody rest).map (fun p => (c :: p.1, p.2))

/-- Span a maximal run of decimal digits. -/
def spanDigits : List Char → List Char × List Char
  | [] => ([], [])
  | c :: rest =>
    if c.isDigit then
      let p := spanDigits rest
      (c :: p.1, p.2)
    else ([], c :: rest)

theorem spanDigits_length (l : List Char) : (spanDigits l).2.length ≤ l.length := by
  induction l with
  | nil => simp [spanDigits]
  | cons c rest ih =>
    simp only [spanDigits]
    split
    · simpa using Nat.le_succ_of_le ih
    · simp

/-- Decimal value of a digit run. -/
def digitsVal (ds : List Char) : Nat :=
  ds.foldl (fun n c => 10 * n + (c.toNat - 48)) 0

/-- Syntactic class being parsed: a value, the items of an array after its
opening bracket, or the fields of an object after its opening brace. -/
inductive PMode where
  | value : PMode
  | items : PMode
  | fields : PMode
deriving Repr

/-- Result of a parse step, matching the mode. -/
inductive PRes where
  | val (v : Json) : PRes
  | items (xs : List Json) : PRes
  | fields (kvs : List (String × Json)) : PRes
deriving Repr

/-- Recursive-descent JSON parser (`JSON.parse`), written as one function
with a fuel parameter so the recursion is structural and the kernel can
evaluate it; every recursive call spends one unit of fuel, and the top-level
wrapper supplies fuel well beyond what an input of the given length can
consume.  `items` parses `value (ws , value)* ws ]` consuming the closing
bracket; `fields` parses `"key" ws : value (ws , fields)* ws` up to and
including the closing brace. -/
def parseF : Nat → PMode → List Char → Option (PRes × List Char)
  | 0, _, _ => none
  | fuel + 1, PMode.value, l =>
    match skipWs l with
    | [] => none
    | '"' :: rest => (parseStringBody rest).map (fun p => (.val (.str ⟨p.1⟩), p.2))
    | '[' :: rest =>
      match skipWs rest with
      | ']' :: r => some (.val (.arr []), r)
      | _ =>
        match parseF fuel PMode.items (skipWs rest) with
        | some (.items xs, r) => some (.val (.arr xs), r)
        | _ => none
    | '\x7b' :: rest =>
      match skipWs rest with
      | '\x7d' :: r => some (.val (.obj []), r)
      | _ =>
        match parseF fuel PMode.fields (skipWs rest) with
        | some (.fields kvs, r) => some (.val (.obj kvs), r)
        | _ => none
    | 't' :: 'r' :: 'u' :: 'e' :: r => some (.val (.bool true), r)
    | 'f' :: 'a' :: 'l' :: 's' :: 'e' :: r => some (.val (.bool false), r)
    | 'n' :: 'u' :: 'l' :: 'l' :: r => some (.val .null, r)
    | c :: rest =>
      if c = '-' then
        match spanDigits rest with
        | ([], _) => none
        | (d :: ds, r) => some (.val (.num (-(digitsVal (d :: ds) : Int))), r)
      else if c.isDigit then
        match spanDigits rest with
        | (ds, r) => some (.val (.num (digitsVal (c :: ds))), r)
      else none
  | fuel + 1, PMode.items, l =>
    match parseF fuel PMode.value l with
    | some (.val v, r1) =>
      match skipWs r1 with
      | ',' :: r2 =>
        match parseF fuel PMode.items r2 with
        | some (.items xs, r3) => some (.items (v :: xs), r3)
        | _ => none
      | ']' :: r2 => some (.items [v], r2)
      | _ => none
    | _ => none
  | fuel + 1, PMode.fields, l =>
    match skipWs l with
    | '"' :: rest =>
      match parseStringBody rest with
      | none => none
      | some (kcs, r1) =>
        match skipWs r1 with
        | ':' :: r2 =>
          match parseF fuel PMode.value r2 with
          | some (.val v, r3) =>
            match skipWs r3 with
            | ',' :: r4 =>
              match parseF fuel PMode.fields r4 with
              | some (.fields kvs, r5) => some (.fields ((⟨kcs⟩, v) :: kvs), r5)
              | _ => none
            | '\x7d' :: r4 => some (.fields [(⟨kcs⟩, v)], r4)
            | _ => none
          | _ => none
        | _ => none
    | _ => none

/-- `JSON.parse`: one value, nothing but whitespace after it.  The fuel
`2 * length + 8` exceeds what the parser can spend on the input: every two
consecutive recursive calls consume at least one input character. -/
def jsonParse (s : String) : Except String Json :=
  match parseF (2 * s.data.length + 8) PMode.value s.data with
  | some (.val v, r) =>
    if skipWs r = [] then .ok v
    else .error "SyntaxError: Unexpected non-whitespace character after JSON data"
  | _ => .error "SyntaxError: Unexpected token in JSON"

/-- From `generator.ts` lines 16–20: parse JSON after removing trailing
commas before a closing brace or bracket. -/
def parseJsonc (content : String) : Except String Json :=
  jsonParse (stripTrailingCommas content)

/-! ## Handlebars (default, non-strict configuration)

The repository calls `Handlebars.compile(templateContent)` and applies the
compiled template to the data object.  In the default configuration a mustache
whose expression the data does not resolve renders as the empty string (no
error); an unclosed mustache is a compile-time parse error.  The context is
abstracted as a partial evaluation function from expression text to strings. -/

/-- Renderer mode: plain text, one opening brace seen, inside a mustache
expression, or inside a mustache having seen one closing brace. -/
inductive RMode where
  | text : RMode
  | brace : RMode
  | expr (acc : List Char) : RMode
  | exprClose (acc : List Char) : RMode
deriving Repr

/-- Renderer state: output accumulated so far and the scanner mode. -/
structure RState where
  out : List Char
  mode : RMode
deriving Repr

/-- One scanner step of the renderer. -/
def renderStep (ctx : String → Option String) (st : RState) (c : Char) : RState :=
  match st.mode with
  | .text =>
    if c = '\x7b' then { st with mode := .brace }
    else { st with out := st.out ++ [c] }
  | .brace =>
    if c = '\x7b' then { st with mode := .expr [] }
    else { out := st.out ++ ['\x7b', c], mode := .text }
  | .expr acc =>
    if c = '\x7d' then { st with mode := .exprClose acc }
    else { st with mode := .expr (acc ++ [c]) }
  | .exprClose acc =>
    if c = '\x7d' then
      { out := st.out ++ ((ctx ⟨acc⟩).getD "").data, mode := .text }
    else { st with mode := .expr (acc ++ ['\x7d', c]) }

/-- `Handlebars.compile(tmpl)` followed by application to the data, in the
default engine configuration: an expression the context does not resolve
renders as the empty string; a mustache left unclosed at the end of the
template is a compile error. -/
def hbRender (tmpl : String) (ctx : String → Option String) :
    Except String String :=
  let st := tmpl.data.foldl (renderStep ctx) { out := [], mode := .text }
  match st.mode with
  | .text => .ok ⟨st.out⟩
  | .brace => .ok ⟨st.out ++ ['\x7b']⟩
  | .expr _ => .error "ParseError: unclosed mustache expression"
  | .exprClose _ => .error "ParseError: unclosed mustache expression"

/-! ## Filesystem state and the effect monad -/

/-- The target repository file tree: file contents by path, plus the set of
directories created (`fs.existsSync` answers true for both). -/
structure FS where
  files : List (String × String)
  dirs : List String
deriving Repr

/-- Update-or-append into an association list (file write semantics). -/
def setAssoc (l : List (String × String)) (k v : String) :
    List (String × String) :=
  match l with
  | [] => [(k, v)]
  | (k', v') :: rest =>
    if k' = k then (k', v) :: rest else (k', v') :: setAssoc rest k v

/-- `fs.existsSync`. -/
def FS.pathExists (fs : FS) (p : String) : Bool :=
  (fs.files.lookup p).isSome || fs.dirs.contains p

/-- The effect monad of the generator: state (the file tree) plus JS
exceptions.  The state component survives a throw — writes performed before
an exception are not rolled back. -/
def M (α : Type) : Type := FS → Except String α × FS

/-- Monadic return. -/
def M.pure (a : α) : M α := fun fs => (.ok a, fs)

/-- Monadic bind (sequencing with exception propagation). -/
def M.bind (x : M α) (f : α → M β) : M β := fun fs =>
  match x fs with
  | (.ok a, fs') => f a fs'
  | (.error e, fs') => (.error e, fs')

instance instMonadM : Monad M where
  pure := M.pure
  bind := M.bind

/-- Throw a JS exception. -/
def M.throwErr (e : String) : M α := fun fs => (.error e, fs)

/-- JS `try`/`catch`. -/
def M.tryCatch (x : M α) (handler : String → M α) : M α := fun fs =>
  match x fs with
  | (.ok a, fs') => (.ok a, fs')
  | (.error e, fs') => handler e fs'

/-- Lift a parse result (an `Except`) into the monad, throwing on error. -/
def M.ofExcept (x : Except String α) : M α := fun fs => (x, fs)

/-- `fs.existsSync` as an action. -/
def existsSync (p : String) : M Bool := fun fs => (.ok (fs.pathExists p), fs)

/-- `fs/promises.readFile` (the generator only reads paths it has checked,
but a missing path faithfully rejects). -/
def readFile (p : String) : M String := fun fs =>
  ((match fs.files.lookup p with
    | some c => Except.ok c
    | none =>
      Except.error ("ENOENT: no such file or directory, open " ++ apos ++ p ++ apos)), fs)

/-- `fs/promises.writeFile`. -/
def writeFile (p c : String) : M Unit := fun fs =>
  (.ok (), { fs with files := setAssoc fs.files p c })

/-- Path segments between `/` separators. -/
def pathSegs (p : String) : List String :=
  (splitChars (fun c => c = '/') p.data).map (fun w => ⟨w⟩)

/-- All `/`-boundary prefixes of a path (the directories `mkdir` with
`recursive: true` brings into existence). -/
def pathAncestors (p : String) : List String :=
  (List.range (pathSegs p).length).map
    (fun i => String.intercalate "/" ((pathSegs p).take (i + 1)))

/-- `fs/promises.mkdir` with `recursive: true`. -/
def mkdirRecursive (p : String) : M Unit := fun fs =>
  (.ok (), { fs with dirs := fs.dirs ++ pathAncestors p })

/-- `path.join` for two segments (the generator passes normalised segments,
so join is separator concatenation). -/
def pathJoin (a b : String) : String := a ++ "/" ++ b

/-- `path.join` for three segments. -/
def pathJoin3 (a b c : String) : String := a ++ "/" ++ b ++ "/" ++ c

/-- `path.dirname`. -/
def dirname (p : String) : String :=
  String.intercalate "/" ((pathSegs p).dropLast)

/-! ## The configuration data model (`src/types/config.ts`) -/

/-- `AssetSource` of `config.ts`. -/
structure AssetSource where
  repository : String
  releaseTag : String
  assetNamePattern : Option String := none
deriving Repr, DecidableEq

/-- `Platform` of `config.ts`. -/
structure Platform where
  os : String
  arch : String
  binaryExtension : Option String := none
deriving Repr, DecidableEq

/-- `RuntimeCheck` of `config.ts`. -/
structure RuntimeCheck where
  command : String
  versionPattern : Option String := none
  minVersion : Option String := none
deriving Repr, DecidableEq

/-- `Activation` of `config.ts` (optional fields as the schema input has
them; the schema default for `workspaceContains` is applied at build time). -/
structure Activation where
  fileExtensions : List String
  filePatterns : Option (List String) := none
  workspaceContains : Option (List String) := none
  additionalLanguageIds : Option (List String) := none
deriving Repr, DecidableEq

/-- `Provider` of `config.ts`. -/
structure Provider where
  type : String
  binaryName : String
  binaryArgs : Option (List String) := none
  assetSource : Option AssetSource := none
  platforms : Option (List Platform) := none
deriving Repr, DecidableEq

/-- `Lsp` of `config.ts`. -/
structure Lsp where
  enabled : Bool
  proxyRequired : Option Bool := none
  providerName : Option String := none
  socketType : Option String := none
deriving Repr, DecidableEq

/-- `Dependencies` of `config.ts`. -/
structure Dependencies where
  vscodeExtensions : Option (List String) := none
  runtimeCheck : Option RuntimeCheck := none
deriving Repr, DecidableEq

/-- `Analysis` of `config.ts`. -/
structure Analysis where
  mode : Option String := none
  contextLines : Option Nat := none
deriving Repr, DecidableEq

/-- `ExtensionConfig` of `config.ts`. -/
structure ExtensionConfig where
  language : String
  displayName : String
  languageId : String
  activation : Activation
  provider : Provider
  lsp : Lsp
  dependencies : Option Dependencies := none
  providerSpecificConfig : Option (List (String × Json)) := none
  analysis : Option Analysis := none
deriving Repr

/-- `CliOptions` of `config.ts`. -/
structure CliOptions where
  config : Option String := none
  interactive : Option Bool := none
  repo : String := ""
  branch : Option String := none
  baseBranch : String := "main"
  dryRun : Bool
  force : Bool
  noCommit : Bool := false
  push : Bool := false
  createPr : Bool := false
deriving Repr

/-- `RepoConfig` of `config.ts` (facts read from the target repository). -/
structure RepoConfig where
  version : String
  releaseTag : String
  csharpReleaseTag : Option String := none
  org : String
  repo : String
  rulesetOrg : String
  rulesetRepo : String
deriving Repr, DecidableEq

/-- `GenerationContext` of `config.ts`. -/
structure GenerationContext where
  config : ExtensionConfig
  options : CliOptions
  repoPath : String
  branchName : String
  templatesDir : String
  repoConfig : RepoConfig
deriving Repr

/-- Operation kind of a `FileOperation`. -/
inductive OpType where
  | create : OpType
  | modify : OpType
deriving Repr, DecidableEq

/-- `FileOperation` of `config.ts`. -/
structure FileOperation where
  type : OpType
  path : String
  description : String
  changes : Option (List String) := none
  content : Option String := none
  diff : Option String := none
deriving Repr, DecidableEq

/-- `GenerationResult` of `config.ts`. -/
structure GenerationResult where
  success : Bool
  operations : List FileOperation
  branchName : String
  commitHash : Option String := none
  prUrl : Option String := none
  errors : List String
deriving Repr, DecidableEq

/-! ## Template data (`generator.ts` lines 32–118) -/

/-- JS `a || b` on an optional string (empty string is falsy). -/
def jsOrStr (a : Option String) (b : String) : String :=
  match a with
  | some s => if s = "" then b else s
  | none => b

/-- JS `a || b` on an optional number (zero is falsy). -/
def jsOrNat (a : Option Nat) (b : Nat) : Nat :=
  match a with
  | some n => if n = 0 then b else n
  | none => b

/-- `TemplateData.activation` of `generator.ts`. -/
structure TDActivation where
  fileExtensions : List String
  filePatterns : Option (List String)
  workspaceContains : List String
  additionalLanguageIds : Option (List String)
deriving Repr

/-- `TemplateData.provider` of `generator.ts`. -/
structure TDProvider where
  type : String
  binaryName : String
  binaryArgs : List String
  platforms : List Platform
  assetSource : Option AssetSource
deriving Repr

/-- `TemplateData.lsp` of `generator.ts`. -/
structure TDLsp where
  enabled : Bool
  proxyRequired : Bool
  providerName : String
deriving Repr

/-- `TemplateData.dependencies` of `generator.ts`. -/
structure TDDependencies where
  vscodeExtensions : List String
  runtimeCheck : Option RuntimeCheck
deriving Repr

/-- `TemplateData.analysis` of `generator.ts`. -/
structure TDAnalysis where
  mode : String
  contextLines : Nat
deriving Repr

/-- `TemplateData` of `generator.ts` lines 32–71. -/
structure TemplateData where
  language : String
  displayName : String
  languageId : String
  pascalLanguage : String
  camelLanguage : String
  activation : TDActivation
  provider : TDProvider
  lsp : TDLsp
  dependencies : TDDependencies
  providerSpecificConfig : List (String × Json)
  analysis : TDAnalysis
deriving Repr

/-- Construction of the template data (`generator.ts` lines 85–118). -/
def buildTemplateData (config : ExtensionConfig) : TemplateData :=
  { language := config.language
    displayName := config.displayName
    languageId := config.languageId
    pascalLanguage := toPascalCase config.language
    camelLanguage := toCamelCase config.language
    activation :=
      { fileExtensions := config.activation.fileExtensions
        filePatterns := config.activation.filePatterns
        workspaceContains := config.activation.workspaceContains.getD []
        additionalLanguageIds := config.activation.additionalLanguageIds }
    provider :=
      { type := config.provider.type
        binaryName := config.provider.binaryName
        binaryArgs := config.provider.binaryArgs.getD []
        platforms := config.provider.platforms.getD []
        assetSource := config.provider.assetSource }
    lsp :=
      { enabled := config.lsp.enabled
        proxyRequired := config.lsp.proxyRequired.getD false
        providerName := jsOrStr config.lsp.providerName config.language }
    dependencies :=
      { vscodeExtensions := (config.dependencies.bind (·.vscodeExtensions)).getD []
        runtimeCheck := config.dependencies.bind (·.runtimeCheck) }
    providerSpecificConfig := config.providerSpecificConfig.getD []
    analysis :=
      { mode := jsOrStr (config.analysis.bind (·.mode)) "source-only"
        contextLines := jsOrNat (config.analysis.bind (·.contextLines)) 10 } }

/-- The Handlebars evaluation context derived from the template data: maps
the expression strings the repository templates use to their values (simple
field paths and the registered helpers applied to `language`). -/
def tdCtx (data : TemplateData) : String → Option String := fun key =>
  if key = "language" then some data.language
  else if key = "displayName" then some data.displayName
  else if key = "languageId" then some data.languageId
  else if key = "pascalLanguage" then some data.pascalLanguage
  else if key = "camelLanguage" then some data.camelLanguage
  else if key = "lsp.providerName" then some data.lsp.providerName
  else if key = "provider.binaryName" then some data.provider.binaryName
  else if key = "provider.type" then some data.provider.type
  else if key = "analysis.mode" then some data.analysis.mode
  else if key = "pascalCase language" then some (toPascalCase data.language)
  else if key = "camelCase language" then some (toCamelCase data.language)
  else if key = "capitalize language" then some (capitalize data.language)
  else none

/-! ## `generateNewFiles` (`generator.ts` lines 170–236) -/

/-- One entry of the file-mapping table. -/
structure FileMapping where
  template : String
  output : String
  condition : Option Bool := none
deriving Repr, DecidableEq

/-- The mapping table of `generator.ts` lines 179–200. -/
def fileMappings (data : TemplateData) : List FileMapping :=
  [ { template := "package.json.hbs", output := "package.json" },
    { template := "tsconfig.json.hbs", output := "tsconfig.json" },
    { template := "webpack.config.js.hbs", output := "webpack.config.js" },
    { template := "eslintrc.json.hbs", output := ".eslintrc.json" },
    { template := "LICENSE.md.hbs", output := "LICENSE.md" },
    { template := "extension.ts.hbs", output := "src/extension.ts" },
    { template := "providerManager.ts.hbs",
      output := "src/" ++ data.pascalLanguage ++ "ExternalProviderManager.ts" },
    { template := "proxyServer.ts.hbs",
      output := "src/" ++ data.pascalLanguage ++ "VscodeProxyServer.ts",
      condition := some data.lsp.proxyRequired },
    { template := "constants.ts.hbs", output := "src/utilities/constants.ts" } ]

/-- The loop body for one mapping (`generator.ts` lines 202–233). -/
def processMapping (templatesDir extensionDir : String) (data : TemplateData)
    (dryRun : Bool) (m : FileMapping) : M (List FileOperation) := do
  if m.condition = some false then
    pure []
  else
    let templatePath := pathJoin templatesDir m.template
    let outputPath := pathJoin extensionDir m.output
    if !(← existsSync templatePath) then
      pure [{ type := .create, path := outputPath,
              description := "Template " ++ m.template ++ " not found - create manually" }]
    else
      let templateContent ← readFile templatePath
      let rendered ← M.ofExcept (hbRender templateContent (tdCtx data))
      if !dryRun then
        mkdirRecursive (dirname outputPath)
        writeFile outputPath rendered
      pure [{ type := .create,
              path := "vscode/" ++ data.language ++ "/" ++ m.output,
              description := "Generated from " ++ m.template,
              content := if dryRun then some rendered else none }]

/-- The `for`-loop of `generateNewFiles`, accumulating staged operations. -/
def generateNewFilesLoop (templatesDir extensionDir : String)
    (data : TemplateData) (dryRun : Bool) :
    List FileMapping → M (List FileOperation)
  | [] => pure []
  | m :: ms => do
    let ops ← processMapping templatesDir extensionDir data dryRun m
    let rest ← generateNewFilesLoop templatesDir extensionDir data dryRun ms
    pure (ops ++ rest)

/-- `generateNewFiles` of `generator.ts`. -/
def generateNewFiles (templatesDir extensionDir : String)
    (data : TemplateData) (dryRun : Bool) : M (List FileOperation) :=
  generateNewFilesLoop templatesDir extensionDir data dryRun (fileMappings data)

/-! ## The seven patch strategies (`generator.ts` lines 241–532)

The source interleaves all seven in one function body over one mutable
`operations` array; each block below is one strategy, and
`modifyExistingFiles` is their sequential composition with the staged
operations concatenated in source order. -/

/-- Sort comparator key of the default JS `Array.sort` (the generator sorts a
workspaces array whose elements are strings). -/
def jsonSortKey : Json → String
  | .str s => s
  | _ => ""

/-- Default JS sort comparator on JSON array elements. -/
def jsonLe (a b : Json) : Bool := jsStrLe (jsonSortKey a) (jsonSortKey b)

/-- The staged root-manifest operation (`generator.ts` lines 271–287). -/
def pkgJsonOp (lang : String) : FileOperation :=
  { type := .modify
    path := "package.json"
    description := "Add workspace and package script"
    changes := some
      [ "Add \"vscode/" ++ lang ++ "\" to workspaces array",
        "Add script \"package-" ++ lang ++ "\": \"node ./scripts/package-extensions.js "
          ++ lang ++ "\"" ]
    diff := some
      ("  \"workspaces\": [\n    ...\n+   \"vscode/" ++ lang ++ "\"\n  ],\n  \"scripts\": \x7b\n    ...\n+   \"package-"
        ++ lang ++ "\": \"node ./scripts/package-extensions.js " ++ lang ++ "\"\n  \x7d") }

/-- Root `package.json` strategy (`generator.ts` lines 249–288).
The workspaces append is guarded by the presence test, but the script
assignment and the staging of the operation are not. -/
def updateRootPackageJson (repoPath : String) (config : ExtensionConfig)
    (dryRun : Bool) : M (List FileOperation) := do
  let rootPkgPath := pathJoin repoPath "package.json"
  if ← existsSync rootPkgPath then
    let content ← readFile rootPkgPath
    let rootPkg ← M.ofExcept (jsonParse content)
    let workspacePath := "vscode/" ++ config.language
    let includes : Bool :=
      match rootPkg.getField "workspaces" with
      | some (.arr xs) =>
        xs.any (fun j => match j with | .str s => s = workspacePath | _ => false)
      | some (.str s) => jsIncludes s workspacePath
      | _ => false
    let afterWs : Except String Json :=
      if includes then .ok rootPkg
      else
        match rootPkg.getField "workspaces" with
        | some (.arr xs) =>
          .ok (rootPkg.setField "workspaces"
            (.arr (stableSort jsonLe (xs ++ [.str workspacePath]))))
        | none =>
          .ok (rootPkg.setField "workspaces" (.arr [.str workspacePath]))
        | some j =>
          if jsTruthy j then
            .error "TypeError: rootPkg.workspaces.push is not a function"
          else
            .ok (rootPkg.setField "workspaces" (.arr [.str workspacePath]))
    let rootPkg ← M.ofExcept afterWs
    let scriptName := "package-" ++ config.language
    let scriptVal := "node ./scripts/package-extensions.js " ++ config.language
    let afterScripts : Except String Json :=
      match rootPkg.getField "scripts" with
      | some (.obj kvs) =>
        .ok (rootPkg.setField "scripts"
          (.obj (setFieldList kvs scriptName (.str scriptVal))))
      | none =>
        .ok (rootPkg.setField "scripts" (.obj [(scriptName, .str scriptVal)]))
      | some j =>
        if jsTruthy j then
          .error "TypeError: cannot create property on rootPkg.scripts"
        else
          .ok (rootPkg.setField "scripts" (.obj [(scriptName, .str scriptVal)]))
    let rootPkg ← M.ofExcept afterScripts
    if !dryRun then
      writeFile rootPkgPath (jsonStringify rootPkg ++ "\n")
    pure [pkgJsonOp config.language]
  else
    pure []

/-- The CI package step text (`generator.ts` lines 296–298; a template
literal whose continuation lines carry eight spaces of indentation). -/
def ciPackageStep (config : ExtensionConfig) : String :=
  "- name: Package " ++ config.displayName ++ " extension\n"
    ++ "        run: npm run package-" ++ config.language ++ "\n"
    ++ "        if: runner.os == " ++ apos ++ "Linux" ++ apos

/-- The staged CI operation (`generator.ts` lines 312–323). -/
def ciOp (config : ExtensionConfig) : FileOperation :=
  { type := .modify
    path := ".github/workflows/ci-repo.yml"
    description := "Add package step for extension"
    changes := some
      [ "Add step: \"Package " ++ config.displayName ++ " extension\"",
        "Run: npm run package-" ++ config.language ]
    diff := some
      ("+     - name: Package " ++ config.displayName ++ " extension\n+       run: npm run package-"
        ++ config.language ++ "\n+       if: runner.os == " ++ apos ++ "Linux" ++ apos) }

/-- CI workflow strategy (`generator.ts` lines 291–325): anchor-pattern
insertion before the step named "Upload VSIX artifacts". -/
def updateCiWorkflow (repoPath : String) (config : ExtensionConfig)
    (dryRun : Bool) : M (List FileOperation) := do
  let ciWorkflowPath := pathJoin repoPath ".github/workflows/ci-repo.yml"
  if ← existsSync ciWorkflowPath then
    let ciContent ← readFile ciWorkflowPath
    if !(jsIncludes ciContent ("package-" ++ config.language)) then
      let ciContent := replaceFirst ciContent
        ("\n      - name: Upload VSIX artifacts")
        ("\n      " ++ ciPackageStep config ++ "\n\n      - name: Upload VSIX artifacts")
      if !dryRun then
        writeFile ciWorkflowPath ciContent
      pure [ciOp config]
    else
      pure []
  else
    pure []

/-- The asset-configuration block (`generator.ts` lines 338–343). -/
def assetConfigBlock (binaryName assetRepo assetTag : String) : String :=
  "  \"" ++ binaryName ++ "\": \x7b\n    release: \x7b\n      repo: \"" ++ assetRepo
    ++ "\",\n      tag: \"" ++ assetTag ++ "\",\n    \x7d,\n  \x7d,"

/-- The staged collect-assets operation (`generator.ts` lines 355–373). -/
def collectAssetsOp (binaryName assetRepo assetTag : String) : FileOperation :=
  { type := .modify
    path := "scripts/collect-assets.js"
    description := "Add asset download configuration"
    changes := some
      [ "Add \"" ++ binaryName ++ "\" to ASSETS object",
        "Repository: " ++ assetRepo,
        "Tag: " ++ assetTag ]
    diff := some
      ("  const ASSETS = \x7b\n+   \"" ++ binaryName ++ "\": \x7b\n+     release: \x7b\n+       repo: \""
        ++ assetRepo ++ "\",\n+       tag: \"" ++ assetTag
        ++ "\",\n+     \x7d,\n+   \x7d,\n    ...\n  \x7d;") }

/-- `scripts/collect-assets.js` strategy (`generator.ts` lines 327–375):
anchor-pattern insertion after the opening of the `ASSETS` object literal. -/
def updateCollectAssets (repoPath : String) (config : ExtensionConfig)
    (repoConfig : RepoConfig) (dryRun : Bool) : M (List FileOperation) := do
  let collectAssetsPath := pathJoin repoPath "scripts/collect-assets.js"
  if ← existsSync collectAssetsPath then
    let content ← readFile collectAssetsPath
    if !(jsIncludes content ("\"" ++ config.provider.binaryName ++ "\"")) then
      let assetRepo := jsOrStr (config.provider.assetSource.map (·.repository))
        (repoConfig.org ++ "/" ++ repoConfig.repo)
      let assetTag := jsOrStr (config.provider.assetSource.map (·.releaseTag))
        repoConfig.releaseTag
      let content := replaceFirst content "const ASSETS = \x7b"
        ("const ASSETS = \x7b\n"
          ++ assetConfigBlock config.provider.binaryName assetRepo assetTag)
      if !dryRun then
        writeFile collectAssetsPath content
      pure [collectAssetsOp config.provider.binaryName assetRepo assetTag]
    else
      pure []
  else
    pure []

/-- The copy-configuration block (`generator.ts` lines 384–389). -/
def copyConfigBlock (lang binaryName : String) : String :=
  "  \"" ++ lang ++ "\": \x7b\n    extensionPath: \"vscode/" ++ lang
    ++ "\",\n    includedAssetPaths: \x7b\n      \"" ++ toCamelCase binaryName
    ++ "\": \"../../downloaded_assets/" ++ binaryName ++ "\",\n    \x7d,\n  \x7d,"

/-- The staged copy-dist operation (`generator.ts` lines 400–417). -/
def copyDistOp (lang binaryName : String) : FileOperation :=
  { type := .modify
    path := "scripts/copy-dist.js"
    description := "Add dist copy configuration"
    changes := some
      [ "Add \"" ++ lang ++ "\" to EXTENSIONS object",
        "Extension path: vscode/" ++ lang ]
    diff := some
      ("  const EXTENSIONS = \x7b\n+   \"" ++ lang ++ "\": \x7b\n+     extensionPath: \"vscode/"
        ++ lang ++ "\",\n+     includedAssetPaths: \x7b\n+       \"" ++ toCamelCase binaryName
        ++ "\": \"../../downloaded_assets/" ++ binaryName
        ++ "\",\n+     \x7d,\n+   \x7d,\n    ...\n  \x7d;") }

/-- `scripts/copy-dist.js` strategy (`generator.ts` lines 377–419). -/
def updateCopyDist (repoPath : String) (config : ExtensionConfig)
    (dryRun : Bool) : M (List FileOperation) := do
  let copyDistPath := pathJoin repoPath "scripts/copy-dist.js"
  if ← existsSync copyDistPath then
    let content ← readFile copyDistPath
    if !(jsIncludes content ("\"" ++ config.language ++ "\"")) then
      let content := replaceFirst content "const EXTENSIONS = \x7b"
        ("const EXTENSIONS = \x7b\n"
          ++ copyConfigBlock config.language config.provider.binaryName)
      if !dryRun then
        writeFile copyDistPath content
      pure [copyDistOp config.language config.provider.binaryName]
    else
      pure []
  else
    pure []

/-- The staged packaging-script operation (`generator.ts` lines 437–446). -/
def packageExtOp (lang : String) : FileOperation :=
  { type := .modify
    path := "scripts/package-extensions.js"
    description := "Add extension to valid list"
    changes := some [ "Add \"" ++ lang ++ "\" to VALID_EXTENSIONS array" ]
    diff := some
      ("- const VALID_EXTENSIONS = [...];\n+ const VALID_EXTENSIONS = [\"" ++ lang
        ++ "\", ...];") }

/-- `scripts/package-extensions.js` strategy (`generator.ts` lines 421–448). -/
def updatePackageExtensions (repoPath : String) (config : ExtensionConfig)
    (dryRun : Bool) : M (List FileOperation) := do
  let packageExtPath := pathJoin repoPath "scripts/package-extensions.js"
  if ← existsSync packageExtPath then
    let content ← readFile packageExtPath
    if !(jsIncludes content ("\"" ++ config.language ++ "\"")) then
      let content := replaceFirst content "const VALID_EXTENSIONS = ["
        ("const VALID_EXTENSIONS = [\"" ++ config.language ++ "\", ")
      if !dryRun then
        writeFile packageExtPath content
      pure [packageExtOp config.language]
    else
      pure []
  else
    pure []

/-- The staged debug-launch operation (`generator.ts` lines 479–492). -/
def launchOp (lang : String) : FileOperation :=
  { type := .modify
    path := ".vscode/launch.json"
    description := "Add extension to debug configuration"
    changes := some
      [ "Add \"$\x7bworkspaceFolder\x7d/vscode/" ++ lang
          ++ "\" to extensionDevelopmentPath" ]
    diff := some
      ("  \"args\": [\n    \"--extensionDevelopmentPath=$\x7bworkspaceFolder\x7d/vscode/core\",\n    \"--extensionDevelopmentPath=$\x7bworkspaceFolder\x7d/vscode/java\",\n    ...\n+   \"--extensionDevelopmentPath=$\x7bworkspaceFolder\x7d/vscode/"
        ++ lang ++ "\",\n  ]") }

/-- `.vscode/launch.json` strategy (`generator.ts` lines 450–494).  A
`configurations` value that is not an array is skipped (the source would
throw calling `forEach` on a truthy non-array; no repository input shaped
that way reaches this strategy). -/
def updateLaunchJson (repoPath : String) (config : ExtensionConfig)
    (dryRun : Bool) : M (List FileOperation) := do
  let launchPath := pathJoin repoPath ".vscode/launch.json"
  if ← existsSync launchPath then
    let content ← readFile launchPath
    let launchJson ← M.ofExcept (jsonParse content)
    let hasExtension : Bool :=
      match launchJson.getField "configurations" with
      | some (.arr cs) =>
        cs.any (fun c =>
          match c.getField "extensionDevelopmentPath" with
          | some (.arr ps) =>
            ps.any (fun p =>
              match p with
              | .str s => jsIncludes s ("vscode/" ++ config.language)
              | _ => false)
          | _ => false)
      | _ => false
    let isArr : Bool :=
      match launchJson.getField "configurations" with
      | some (.arr _) => true
      | _ => false
    let entry := "$\x7bworkspaceFolder\x7d/vscode/" ++ config.language
    let newLaunch : Json :=
      match launchJson.getField "configurations" with
      | some (.arr cs) =>
        launchJson.setField "configurations" (.arr (cs.map (fun c =>
          match c.getField "extensionDevelopmentPath" with
          | some (.arr ps) =>
            c.setField "extensionDevelopmentPath" (.arr (ps ++ [.str entry]))
          | _ => c)))
      | _ => launchJson
    if !hasExtension && isArr then
      if !dryRun then
        writeFile launchPath (jsonStringify newLaunch ++ "\n")
      pure [launchOp config.language]
    else
      pure []
  else
    pure []

/-- The staged workspace-file operation (`generator.ts` lines 514–527). -/
def workspaceOp (lang : String) : FileOperation :=
  { type := .modify
    path := "konveyor-extensions.code-workspace"
    description := "Add extension folder to workspace"
    changes := some [ "Add folder: \x7b \"path\": \"vscode/" ++ lang ++ "\" \x7d" ]
    diff := some
      ("  \"folders\": [\n    ...\n+   \x7b\n+     \"path\": \"vscode/" ++ lang
        ++ "\"\n+   \x7d\n  ]") }

/-- Workspace-file strategy (`generator.ts` lines 496–529): relaxed-JSON
parse, folder append, re-serialization. -/
def updateWorkspaceFile (repoPath : String) (config : ExtensionConfig)
    (dryRun : Bool) : M (List FileOperation) := do
  let workspacePath := pathJoin repoPath "konveyor-extensions.code-workspace"
  if ← existsSync workspacePath then
    let workspaceContent ← readFile workspacePath
    let workspace ← M.ofExcept (parseJsonc workspaceContent)
    let hasFolder : Bool :=
      match workspace.getField "folders" with
      | some (.arr folders) =>
        folders.any (fun f =>
          match f.getField "path" with
          | some (.str s) => s = "vscode/" ++ config.language
          | _ => false)
      | _ => false
    let folders : List Json :=
      match workspace.getField "folders" with
      | some (.arr folders) => folders
      | _ => []
    let newWorkspace : Json := workspace.setField "folders"
      (.arr (folders ++ [.obj [("path", .str ("vscode/" ++ config.language))]]))
    if !hasFolder then
      if !dryRun then
        writeFile workspacePath (jsonStringify newWorkspace ++ "\n")
      pure [workspaceOp config.language]
    else
      pure []
  else
    pure []

/-- `modifyExistingFiles` of `generator.ts` lines 241–532: the seven
strategies in source order, staged operations concatenated. -/
def modifyExistingFiles (repoPath : String) (config : ExtensionConfig)
    (repoConfig : RepoConfig) (dryRun : Bool) : M (List FileOperation) := do
  let o1 ← updateRootPackageJson repoPath config dryRun
  let o2 ← updateCiWorkflow repoPath config dryRun
  let o3 ← updateCollectAssets repoPath config repoConfig dryRun
  let o4 ← updateCopyDist repoPath config dryRun
  let o5 ← updatePackageExtensions repoPath config dryRun
  let o6 ← updateLaunchJson repoPath config dryRun
  let o7 ← updateWorkspaceFile repoPath config dryRun
  pure (o1 ++ o2 ++ o3 ++ o4 ++ o5 ++ o6 ++ o7)

/-! ## `generateExtension` (`generator.ts` lines 76–165) -/

/-- The extension directory `join(repoPath, "vscode", config.language)`. -/
def extensionDirOf (ctx : GenerationContext) : String :=
  pathJoin3 ctx.repoPath "vscode" ctx.config.language

/-- The directory-creation step inside the `try` of `generateExtension`
(`generator.ts` lines 131–135): skipped in preview mode. -/
def mkdirPhase (extensionDir : String) (dryRun : Bool) : M Unit :=
  if !dryRun then
    mkdirRecursive (pathJoin3 extensionDir "src" "utilities") >>= fun _ =>
      mkdirRecursive (pathJoin extensionDir "resources")
  else
    Pure.pure ()

/-- The body inside the `try` of `generateExtension`.  The source pushes the
operations of each completed phase onto one outer mutable array before the
next phase runs; the nested catch reproduces that: an exception thrown while
patching still returns the create-operations already pushed, an exception
thrown earlier returns the empty ledger. -/
def generateBody (ctx : GenerationContext) (templateData : TemplateData)
    (extensionDir : String) : M GenerationResult :=
  M.tryCatch
    (mkdirPhase extensionDir ctx.options.dryRun >>= fun _ =>
      generateNewFiles ctx.templatesDir extensionDir templateData
          ctx.options.dryRun >>= fun newFiles =>
        M.tryCatch
          (modifyExistingFiles ctx.repoPath ctx.config ctx.repoConfig
              ctx.options.dryRun >>= fun modifiedFiles =>
            Pure.pure { success := true, operations := newFiles ++ modifiedFiles,
                        branchName := ctx.branchName, errors := [] })
          (fun e =>
            Pure.pure { success := false, operations := newFiles,
                        branchName := ctx.branchName, errors := [e] }))
    (fun e =>
      Pure.pure { success := false, operations := [],
                  branchName := ctx.branchName, errors := [e] })

/-- `generateExtension` of `generator.ts` lines 76–165. -/
def generateExtension (ctx : GenerationContext) : M GenerationResult := do
  let templateData := buildTemplateData ctx.config
  let extensionDir := extensionDirOf ctx
  if (← existsSync extensionDir) && !ctx.options.force then
    pure { success := false, operations := [], branchName := ctx.branchName,
           errors := ["Extension directory already exists: " ++ extensionDir
             ++ ". Use --force to overwrite."] }
  else
    generateBody ctx templateData extensionDir

/-! ## Concrete fixtures: a fresh target repository and extension configs -/

/-- A template directory holding all nine template sources. -/
def tmplFiles : List (String × String) :=
  [ ("tmpl/package.json.hbs", "P"), ("tmpl/tsconfig.json.hbs", "T"),
    ("tmpl/webpack.config.js.hbs", "W"), ("tmpl/eslintrc.json.hbs", "E"),
    ("tmpl/LICENSE.md.hbs", "L"), ("tmpl/extension.ts.hbs", "X"),
    ("tmpl/providerManager.ts.hbs", "PM"), ("tmpl/proxyServer.ts.hbs", "PS"),
    ("tmpl/constants.ts.hbs", "C") ]

/-- A fresh target repository containing all seven patch-target files, none
of them mentioning the extensions under test. -/
def repoFilesFresh : List (String × String) :=
  [ ("repo/package.json",
      jsonStringify (.obj [("version", .str "0.4.0"),
        ("workspaces", .arr [.str "vscode/core", .str "vscode/zig"]),
        ("scripts", .obj [])]) ++ "\n"),
    ("repo/.github/workflows/ci-repo.yml",
      "jobs:\n  build:\n    steps:\n      - name: Build\n        run: npm ci\n\n      - name: Upload VSIX artifacts\n        run: upload\n"),
    ("repo/scripts/collect-assets.js", "const ASSETS = \x7b\n  \"kai\": \x7b\x7d,\n\x7d;\n"),
    ("repo/scripts/copy-dist.js", "const EXTENSIONS = \x7b\n  \"java\": \x7b\x7d,\n\x7d;\n"),
    ("repo/scripts/package-extensions.js", "const VALID_EXTENSIONS = [\"java\"];\n"),
    ("repo/.vscode/launch.json",
      jsonStringify (.obj [("configurations", .arr [.obj [("extensionDevelopmentPath",
        .arr [.str "$\x7bworkspaceFolder\x7d/vscode/core"])]])]) ++ "\n"),
    ("repo/konveyor-extensions.code-workspace",
      jsonStringify (.obj [("folders", .arr [.obj [("path", .str "vscode/core")]])]) ++ "\n") ]

/-- Templates plus the fresh repository. -/
def fsFresh : FS := { files := tmplFiles ++ repoFilesFresh, dirs := [] }

/-- Repository context facts. -/
def repoCfg : RepoConfig :=
  { version := "0.4.0", releaseTag := "v0.8.0", org := "konveyor", repo := "kai",
    rulesetOrg := "konveyor", rulesetRepo := "rulesets" }

/-- Extension config `python`, LSP proxy required. -/
def pythonConfig : ExtensionConfig :=
  { language := "python", displayName := "Python", languageId := "python",
    activation := { fileExtensions := [".py"] },
    provider := { type := "generic", binaryName := "python-provider" },
    lsp := { enabled := true, proxyRequired := some true } }

/-- Extension config `rust`, LSP proxy not required. -/
def rustConfig : ExtensionConfig :=
  { language := "rust", displayName := "Rust", languageId := "rust",
    activation := { fileExtensions := [".rs"] },
    provider := { type := "generic", binaryName := "rust-provider" },
    lsp := { enabled := true, proxyRequired := some false } }

/-- A generation context over the fixture repository. -/
def mkCtx (config : ExtensionConfig) (dryRun force : Bool) : GenerationContext :=
  { config := config, options := { dryRun := dryRun, force := force },
    repoPath := "repo", branchName := "feature/x", templatesDir := "tmpl",
    repoConfig := repoCfg }

/-! ## Running the monad: simp equations -/

/-- Run of a bind. -/
theorem M_run_bind (x : M α) (f : α → M β) (fs : FS) :
    (x >>= f) fs =
      match x fs with
      | (.ok a, fs') => f a fs'
      | (.error e, fs') => (.error e, fs') := rfl

/-- Run of a pure value. -/
@[simp] theorem M_run_pure (a : α) (fs : FS) :
    (Pure.pure a : M α) fs = (.ok a, fs) := rfl

/-- Run of `existsSync`. -/
@[simp] theorem M_run_existsSync (p : String) (fs : FS) :
    existsSync p fs = (.ok (fs.pathExists p), fs) := rfl

/-- Run of `M.throwErr`. -/
@[simp] theorem M_run_throwErr (e : String) (fs : FS) :
    (M.throwErr e : M α) fs = (.error e, fs) := rfl

/-- Run of `writeFile`. -/
@[simp] theorem M_run_writeFile (p c : String) (fs : FS) :
    writeFile p c fs = (.ok (), { fs with files := setAssoc fs.files p c }) := rfl

/-- Run of `mkdirRecursive`. -/
@[simp] theorem M_run_mkdirRecursive (p : String) (fs : FS) :
    mkdirRecursive p fs = (.ok (), { fs with dirs := fs.dirs ++ pathAncestors p }) := rfl

/-- Run of `readFile`. -/
@[simp] theorem M_run_readFile (p : String) (fs : FS) :
    readFile p fs =
      ((match fs.files.lookup p with
        | some c => Except.ok c
        | none =>
          Except.error ("ENOENT: no such file or directory, open " ++ apos ++ p ++ apos)), fs) := rfl

/-- Run of `M.tryCatch`. -/
@[simp] theorem M_run_tryCatch (x : M α) (handler : String → M α) (fs : FS) :
    M.tryCatch x handler fs =
      match x fs with
      | (.ok a, fs') => (.ok a, fs')
      | (.error e, fs') => handler e fs' := rfl

/-- Run of `M.ofExcept`. -/
@[simp] theorem M_run_ofExcept (x : Except String α) (fs : FS) :
    M.ofExcept x fs = (x, fs) := rfl

/-- Fused run: bind after a pure value. -/
@[simp] theorem M_run_bind_pure (a : α) (f : α → M β) (fs : FS) :
    ((Pure.pure a : M α) >>= f) fs = f a fs := rfl

/-- Fused run: bind after `existsSync`. -/
@[simp] theorem M_run_bind_existsSync (p : String) (f : Bool → M β) (fs : FS) :
    (existsSync p >>= f) fs = f (fs.pathExists p) fs := rfl

/-- Fused run: bind after `writeFile`. -/
@[simp] theorem M_run_bind_writeFile (p c : String) (f : Unit → M β) (fs : FS) :
    (writeFile p c >>= f) fs =
      f () { fs with files := setAssoc fs.files p c } := rfl

/-- Fused run: bind after `mkdirRecursive`. -/
@[simp] theorem M_run_bind_mkdir (p : String) (f : Unit → M β) (fs : FS) :
    (mkdirRecursive p >>= f) fs =
      f () { fs with dirs := fs.dirs ++ pathAncestors p } := rfl

/-- Fused run: bind after lifting an `Except`; the branch is on the pure
value, the state passes through syntactically. -/
@[simp] theorem M_run_bind_ofExcept (x : Except String α) (f : α → M β)
    (fs : FS) :
    (M.ofExcept x >>= f) fs =
      match x with
      | .ok a => f a fs
      | .error e => (.error e, fs) := by
  cases x <;> rfl

/-- Fused run: bind after `readFile`. -/
@[simp] theorem M_run_bind_readFile (p : String) (f : String → M β) (fs : FS) :
    (readFile p >>= f) fs =
      match fs.files.lookup p with
      | some c => f c fs
      | none =>
        (.error ("ENOENT: no such file or directory, open " ++ apos ++ p ++ apos),
          fs) := by
  cases h : fs.files.lookup p <;>
    simp only [M_run_bind, M_run_readFile, h]

/-- Running an `if` distributes into its branches. -/
@[simp] theorem M_run_ite (c : Prop) [Decidable c] (m1 m2 : M α) (fs : FS) :
    (if c then m1 else m2) fs = if c then m1 fs else m2 fs := by
  split <;> rfl

/-! ## Projections and fixture runs used by the claim statements -/

/-- The result of a run (a failed-to-return run is reported as a failure
carrying the escaped message; `generateExtension` never takes that branch). -/
def resultOf (x : Except String GenerationResult × FS) : GenerationResult :=
  match x.1 with
  | .ok r => r
  | .error e => { success := false, operations := [], branchName := "", errors := [e] }

/-- Paths of the staged create-operations of a result. -/
def createPaths (r : GenerationResult) : List String :=
  (r.operations.filter (fun o => o.type = OpType.create)).map (fun o => o.path)

/-- Paths of the staged modify-operations of a result. -/
def modifyPaths (r : GenerationResult) : List String :=
  (r.operations.filter (fun o => o.type = OpType.modify)).map (fun o => o.path)

/-- The workspaces array of the root manifest of the final file tree. -/
def workspacesAfter (x : Except String GenerationResult × FS) :
    Option (List String) :=
  match x.2.files.lookup "repo/package.json" with
  | none => none
  | some content =>
    match jsonParse content with
    | .ok j =>
      match j.getField "workspaces" with
      | some (.arr xs) =>
        some (xs.filterMap (fun v => match v with | .str s => some s | _ => none))
      | _ => none
    | .error _ => none

/-- Scenario A: fresh repository, `python`, proxy required, preview mode. -/
def runScenarioA : Except String GenerationResult × FS :=
  generateExtension (mkCtx pythonConfig true false) fsFresh

/-- Scenario B: fresh repository, `rust`, proxy not required, apply mode. -/
def runScenarioB : Except String GenerationResult × FS :=
  generateExtension (mkCtx rustConfig false false) fsFresh

/-- First apply-mode patching pass over the fresh repository. -/
def patchPass1 : Except String (List FileOperation) × FS :=
  modifyExistingFiles "repo" pythonConfig repoCfg false
    { files := repoFilesFresh, dirs := [] }

/-- Second apply-mode patching pass, over the repository the first pass
produced. -/
def patchPass2 : Except String (List FileOperation) × FS :=
  modifyExistingFiles "repo" pythonConfig repoCfg false patchPass1.2

/-- A repository whose root manifest already lists `vscode/python` (the
presence test of the root-manifest strategy holds). -/
def fsAlreadyPatched : FS :=
  { files := [("repo/package.json",
      jsonStringify (.obj [("workspaces",
        .arr [.str "vscode/core", .str "vscode/python"])]) ++ "\n")],
    dirs := [] }

/-- The patching pass over `fsAlreadyPatched`, preview mode. -/
def patchAlreadyPatched : Except String (List FileOperation) × FS :=
  modifyExistingFiles "repo" pythonConfig repoCfg true fsAlreadyPatched

/-- A repository whose CI workflow contains neither the package-script
reference nor the "Upload VSIX artifacts" anchor. -/
def fsAnchorMiss : FS :=
  { files := [("repo/.github/workflows/ci-repo.yml", "steps:\n")], dirs := [] }

/-- The patching pass over `fsAnchorMiss`, apply mode. -/
def patchAnchorMiss : Except String (List FileOperation) × FS :=
  modifyExistingFiles "repo" pythonConfig repoCfg false fsAnchorMiss

/-- A workspace file that is strict JSON (no trailing commas) whose one
folder path contains a comma followed by a closing bracket. -/
def wsHazardContent : String :=
  "\x7b\"folders\": [\x7b\"path\": \"x,]\"\x7d]\x7d"

/-- A repository holding only that workspace file. -/
def fsWsHazard : FS :=
  { files := [("repo/konveyor-extensions.code-workspace", wsHazardContent)],
    dirs := [] }

/-- The patching pass over `fsWsHazard`, apply mode. -/
def patchWsHazard : Except String (List FileOperation) × FS :=
  modifyExistingFiles "repo" pythonConfig repoCfg false fsWsHazard

/-- Templates plus a root manifest that is not valid JSON: patching throws
mid-run, after the create-operations were staged. -/
def fsBadManifest : FS :=
  { files := tmplFiles ++ [("repo/package.json", "\x7bnot json")], dirs := [] }

/-- The full run over `fsBadManifest`, preview mode. -/
def runBadManifest : Except String GenerationResult × FS :=
  generateExtension (mkCtx pythonConfig true false) fsBadManifest

/-- A template directory holding only one template, whose body contains a
mustache expression no context field resolves. -/
def fsUnresolved : FS :=
  { files := [("tmpl/package.json.hbs", "Hello \x7b\x7bmissing\x7d\x7d!")],
    dirs := [] }

/-- The full run over `fsUnresolved`, preview mode. -/
def runUnresolved : Except String GenerationResult × FS :=
  generateExtension (mkCtx pythonConfig true false) fsUnresolved

/-! ## Shape predicates and further fixtures used by the claim statements -/

/-- Field discipline of a staged modify-operation as the source constructs
them: always a description, change summaries and a diff, never content. -/
def ModOpOK (op : FileOperation) : Prop :=
  op.type = OpType.modify ∧ op.diff.isSome = true ∧ op.changes.isSome = true ∧
    op.content = none

/-- Field discipline of a staged create-operation: never a diff or change
summaries; content only in preview mode (placeholders never carry it). -/
def CreOpOK (dryRun : Bool) (op : FileOperation) : Prop :=
  op.type = OpType.create ∧ op.diff = none ∧ op.changes = none ∧
    (op.content.isSome = true → dryRun = true)

/-- The per-operation field discipline of a whole run. -/
def OpFieldsOK (dryRun : Bool) (op : FileOperation) : Prop :=
  (op.type = OpType.modify →
    op.diff.isSome = true ∧ op.changes.isSome = true ∧ op.content = none) ∧
  (op.type = OpType.create →
    op.diff = none ∧ op.changes = none ∧
      (op.content.isSome = true → dryRun = true))

/-- The placeholder operation staged for a missing template
(`generator.ts` lines 210–214). -/
def placeholderOp (outputPath template : String) : FileOperation :=
  { type := .create, path := outputPath,
    description := "Template " ++ template ++ " not found - create manually" }

/-- A repository where the extension directory for `python` already exists. -/
def fsDirExists : FS := { files := [], dirs := ["repo/vscode/python"] }

/-- A template directory missing one template (`constants.ts.hbs`). -/
def fsMissingOne : FS :=
  { files := tmplFiles.filter (fun p => p.1 ≠ "tmpl/constants.ts.hbs"),
    dirs := [] }

/-! ## Workspace-file shapes for the relaxed-JSON claim -/

/-- One folder entry of a workspace file. -/
def wsFolderEntry (p : String) : Json := .obj [("path", .str p)]

/-- A workspace value with the given folder paths. -/
def wsJson (ps : List String) : Json :=
  .obj [("folders", .arr (ps.map wsFolderEntry))]

/-- Characters safe inside a JSON string in every respect the strategies
care about: no quote, no backslash, no control characters, no whitespace,
no comma and no brackets (so the comma strip cannot touch them). -/
def plainChar (c : Char) : Bool :=
  c.isAlphanum ∨ c = '/' ∨ c = '-' ∨ c = '_' ∨ c = '.'

/-- A non-empty path of plain characters. -/
def plainPath (s : String) : Bool :=
  match s.data with
  | [] => false
  | _ => s.data.all plainChar

/-- The serialized text of one folder entry at its depth in the folders
array (matching `JSON.stringify(v, null, 2)`). -/
def wsItemText (p : String) : String :=
  "    \x7b\n      \"path\": \"" ++ p ++ "\"\n    \x7d"

/-- The serialized folder entries joined by `,\n`. -/
def wsItemsText : List String → String
  | [] => ""
  | [p] => wsItemText p
  | p :: q :: ps => wsItemText p ++ ",\n" ++ wsItemsText (q :: ps)

/-- The strict serialization of a workspace value. -/
def wsText (ps : List String) : String :=
  match ps with
  | [] => "\x7b\n  \"folders\": []\n\x7d"
  | _ => "\x7b\n  \"folders\": [\n" ++ wsItemsText ps ++ "\n  ]\n\x7d"

/-- The same workspace file with one trailing comma after the last folder
entry (the classic relaxed-JSON shape the strategy is specified to accept). -/
def wsTextTC (ps : List String) : String :=
  match ps with
  | [] => "\x7b\n  \"folders\": []\n\x7d"
  | _ => "\x7b\n  \"folders\": [\n" ++ wsItemsText ps ++ ",\n  ]\n\x7d"

/-- A repository holding one workspace file with the given folder paths and
a trailing comma. -/
def fsWorkspaceTC (ps : List String) : FS :=
  { files := [("repo/konveyor-extensions.code-workspace", wsTextTC ps)],
    dirs := [] }

/-! ## Decomposition lemmas for runs of the monad -/

/-- A successful bind factors through a successful first component. -/
theorem M_bind_ok {x : M α} {f : α → M β} {fs fs' : FS} {b : β}
    (h : (x >>= f) fs = (.ok b, fs')) :
    ∃ a fs₁, x fs = (.ok a, fs₁) ∧ f a fs₁ = (.ok b, fs') := by
  simp only [M_run_bind] at h
  split at h
  · rename_i a fs₁ heq
    exact ⟨a, fs₁, heq, h⟩
  · simp at h

/-- A successful catch ran the body to success, or the body failed and the
handler succeeded. -/
theorem M_tryCatch_ok {x : M α} {handler : String → M α} {fs fs' : FS} {a : α}
    (h : M.tryCatch x handler fs = (.ok a, fs')) :
    x fs = (.ok a, fs') ∨
      ∃ e fs₁, x fs = (.error e, fs₁) ∧ handler e fs₁ = (.ok a, fs') := by
  simp only [M_run_tryCatch] at h
  split at h
  · rename_i a' fs₁ heq
    left
    rw [heq]
    exact h
  · rename_i e fs₁ heq
    right
    exact ⟨e, fs₁, heq, h⟩

/-! ## State preservation in preview mode -/

/-- An action that leaves the file tree untouched on every start state. -/
def PreservesFS {α : Type} (m : M α) : Prop := ∀ fs, (m fs).2 = fs

theorem preservesFS_pure (a : α) : PreservesFS (Pure.pure a : M α) :=
  fun _ => rfl

theorem preservesFS_pure' (a : α) : PreservesFS (pure a : M α) :=
  fun _ => rfl

theorem preservesFS_bind {x : M α} {f : α → M β}
    (hx : PreservesFS x) (hf : ∀ a, PreservesFS (f a)) :
    PreservesFS (x >>= f) := by
  intro fs
  have h1 := hx fs
  simp only [M_run_bind]
  split
  · rename_i a fs₁ heq
    rw [heq] at h1
    simp only at h1
    subst h1
    exact hf a _
  · rename_i e fs₁ heq
    rw [heq] at h1
    simp only at h1
    subst h1
    rfl

theorem preservesFS_tryCatch {x : M α} {handler : String → M α}
    (hx : PreservesFS x) (hh : ∀ e, PreservesFS (handler e)) :
    PreservesFS (M.tryCatch x handler) := by
  intro fs
  have h1 := hx fs
  simp only [M_run_tryCatch]
  split
  · rename_i a fs₁ heq
    rw [heq] at h1
    exact h1
  · rename_i e fs₁ heq
    rw [heq] at h1
    simp only at h1
    subst h1
    exact hh e _

theorem preservesFS_existsSync (p : String) : PreservesFS (existsSync p) :=
  fun _ => rfl

theorem preservesFS_readFile (p : String) : PreservesFS (readFile p) :=
  fun _ => rfl

theorem preservesFS_throwErr (e : String) :
    PreservesFS (M.throwErr e : M α) := fun _ => rfl

theorem preservesFS_ofExcept (x : Except String α) :
    PreservesFS (M.ofExcept x) := fun _ => rfl

/-- In preview mode the root-manifest strategy performs no write. -/
theorem updateRootPackageJson_dry (repoPath : String) (config : ExtensionConfig) :
    PreservesFS (updateRootPackageJson repoPath config true) := by
  intro fs
  simp only [updateRootPackageJson, M_run_bind_pure, M_run_bind_existsSync,
    M_run_bind_writeFile, M_run_bind_mkdir, M_run_bind_ofExcept,
    M_run_bind_readFile, M_run_ite, M_run_pure, M_run_throwErr,
    Bool.not_true, Bool.false_eq_true, if_false]
  repeat'
    first
    | split
    | simp only [M_run_bind_pure, M_run_bind_existsSync, M_run_bind_writeFile,
        M_run_bind_mkdir, M_run_bind_ofExcept, M_run_bind_readFile, M_run_ite,
        M_run_pure, M_run_throwErr, Bool.not_true, Bool.false_eq_true, if_false]

/-- In preview mode the CI-workflow strategy performs no write. -/
theorem updateCiWorkflow_dry (repoPath : String) (config : ExtensionConfig) :
    PreservesFS (updateCiWorkflow repoPath config true) := by
  intro fs
  simp only [updateCiWorkflow, M_run_bind_pure, M_run_bind_existsSync,
    M_run_bind_writeFile, M_run_bind_mkdir, M_run_bind_ofExcept,
    M_run_bind_readFile, M_run_ite, M_run_pure, M_run_throwErr,
    Bool.not_true, Bool.false_eq_true, if_false]
  repeat'
    first
    | split
    | simp only [M_run_bind_pure, M_run_bind_existsSync, M_run_bind_writeFile,
        M_run_bind_mkdir, M_run_bind_ofExcept, M_run_bind_readFile, M_run_ite,
        M_run_pure, M_run_throwErr, Bool.not_true, Bool.false_eq_true, if_false]

/-- In preview mode the asset-collection strategy performs no write. -/
theorem updateCollectAssets_dry (repoPath : String) (config : ExtensionConfig)
    (repoConfig : RepoConfig) :
    PreservesFS (updateCollectAssets repoPath config repoConfig true) := by
  intro fs
  simp only [updateCollectAssets, M_run_bind_pure, M_run_bind_existsSync,
    M_run_bind_writeFile, M_run_bind_mkdir, M_run_bind_ofExcept,
    M_run_bind_readFile, M_run_ite, M_run_pure, M_run_throwErr,
    Bool.not_true, Bool.false_eq_true, if_false]
  repeat'
    first
    | split
    | simp only [M_run_bind_pure, M_run_bind_existsSync, M_run_bind_writeFile,
        M_run_bind_mkdir, M_run_bind_ofExcept, M_run_bind_readFile, M_run_ite,
        M_run_pure, M_run_throwErr, Bool.not_true, Bool.false_eq_true, if_false]

/-- In preview mode the dist-copy strategy performs no write. -/
theorem updateCopyDist_dry (repoPath : String) (config : ExtensionConfig) :
    PreservesFS (updateCopyDist repoPath config true) := by
  intro fs
  simp only [updateCopyDist, M_run_bind_pure, M_run_bind_existsSync,
    M_run_bind_writeFile, M_run_bind_mkdir, M_run_bind_ofExcept,
    M_run_bind_readFile, M_run_ite, M_run_pure, M_run_throwErr,
    Bool.not_true, Bool.false_eq_true, if_false]
  repeat'
    first
    | split
    | simp only [M_run_bind_pure, M_run_bind_existsSync, M_run_bind_writeFile,
        M_run_bind_mkdir, M_run_bind_ofExcept, M_run_bind_readFile, M_run_ite,
        M_run_pure, M_run_throwErr, Bool.not_true, Bool.false_eq_true, if_false]

/-- In preview mode the packaging-script strategy performs no write. -/
theorem updatePackageExtensions_dry (repoPath : String)
    (config : ExtensionConfig) :
    PreservesFS (updatePackageExtensions repoPath config true) := by
  intro fs
  simp only [updatePackageExtensions, M_run_bind_pure, M_run_bind_existsSync,
    M_run_bind_writeFile, M_run_bind_mkdir, M_run_bind_ofExcept,
    M_run_bind_readFile, M_run_ite, M_run_pure, M_run_throwErr,
    Bool.not_true, Bool.false_eq_true, if_false]
  repeat'
    first
    | split
    | simp only [M_run_bind_pure, M_run_bind_existsSync, M_run_bind_writeFile,
        M_run_bind_mkdir, M_run_bind_ofExcept, M_run_bind_readFile, M_run_ite,
        M_run_pure, M_run_throwErr, Bool.not_true, Bool.false_eq_true, if_false]

/-- In preview mode the debug-launch strategy performs no write. -/
theorem updateLaunchJson_dry (repoPath : String) (config : ExtensionConfig) :
    PreservesFS (updateLaunchJson repoPath config true) := by
  intro fs
  simp only [updateLaunchJson, M_run_bind_pure, M_run_bind_existsSync,
    M_run_bind_writeFile, M_run_bind_mkdir, M_run_bind_ofExcept,
    M_run_bind_readFile, M_run_ite, M_run_pure, M_run_throwErr,
    Bool.not_true, Bool.false_eq_true, if_false]
  repeat'
    first
    | split
    | simp only [M_run_bind_pure, M_run_bind_existsSync, M_run_bind_writeFile,
        M_run_bind_mkdir, M_run_bind_ofExcept, M_run_bind_readFile, M_run_ite,
        M_run_pure, M_run_throwErr, Bool.not_true, Bool.false_eq_true, if_false]

/-- In preview mode the workspace-file strategy performs no write. -/
theorem updateWorkspaceFile_dry (repoPath : String) (config : ExtensionConfig) :
    PreservesFS (updateWorkspaceFile repoPath config true) := by
  intro fs
  simp only [updateWorkspaceFile, M_run_bind_pure, M_run_bind_existsSync,
    M_run_bind_writeFile, M_run_bind_mkdir, M_run_bind_ofExcept,
    M_run_bind_readFile, M_run_ite, M_run_pure, M_run_throwErr,
    Bool.not_true, Bool.false_eq_true, if_false]
  repeat'
    first
    | split
    | simp only [M_run_bind_pure, M_run_bind_existsSync, M_run_bind_writeFile,
        M_run_bind_mkdir, M_run_bind_ofExcept, M_run_bind_readFile, M_run_ite,
        M_run_pure, M_run_throwErr, Bool.not_true, Bool.false_eq_true, if_false]

/-- In preview mode the patching phase performs no write. -/
theorem modifyExistingFiles_dry (repoPath : String) (config : ExtensionConfig)
    (repoConfig : RepoConfig) :
    PreservesFS (modifyExistingFiles repoPath config repoConfig true) := by
  unfold modifyExistingFiles
  apply preservesFS_bind (updateRootPackageJson_dry _ _)
  intro o1
  apply preservesFS_bind (updateCiWorkflow_dry _ _)
  intro o2
  apply preservesFS_bind (updateCollectAssets_dry _ _ _)
  intro o3
  apply preservesFS_bind (updateCopyDist_dry _ _)
  intro o4
  apply preservesFS_bind (updatePackageExtensions_dry _ _)
  intro o5
  apply preservesFS_bind (updateLaunchJson_dry _ _)
  intro o6
  apply preservesFS_bind (updateWorkspaceFile_dry _ _)
  intro o7
  exact preservesFS_pure' _

/-- In preview mode one emission step performs no write. -/
theorem processMapping_dry (templatesDir extensionDir : String)
    (data : TemplateData) (m : FileMapping) :
    PreservesFS (processMapping templatesDir extensionDir data true m) := by
  intro fs
  simp only [processMapping, M_run_bind_pure, M_run_bind_existsSync,
    M_run_bind_writeFile, M_run_bind_mkdir, M_run_bind_ofExcept,
    M_run_bind_readFile, M_run_ite, M_run_pure, M_run_throwErr,
    Bool.not_true, Bool.false_eq_true, if_false]
  repeat'
    first
    | split
    | simp only [M_run_bind_pure, M_run_bind_existsSync, M_run_bind_writeFile,
        M_run_bind_mkdir, M_run_bind_ofExcept, M_run_bind_readFile, M_run_ite,
        M_run_pure, M_run_throwErr, Bool.not_true, Bool.false_eq_true, if_false]

/-- In preview mode the emission loop performs no write. -/
theorem generateNewFilesLoop_dry (templatesDir extensionDir : String)
    (data : TemplateData) :
    ∀ ms, PreservesFS (generateNewFilesLoop templatesDir extensionDir data true ms) := by
  intro ms
  induction ms with
  | nil => exact preservesFS_pure' _
  | cons m ms ih =>
    unfold generateNewFilesLoop
    apply preservesFS_bind (processMapping_dry _ _ _ _)
    intro ops
    apply preservesFS_bind ih
    intro rest
    exact preservesFS_pure' _

/-- In preview mode the emission phase performs no write. -/
theorem generateNewFiles_dry (templatesDir extensionDir : String)
    (data : TemplateData) :
    PreservesFS (generateNewFiles templatesDir extensionDir data true) :=
  generateNewFilesLoop_dry templatesDir extensionDir data _

/-! ## Field discipline of the staged operations -/

theorem updateRootPackageJson_ops {repoPath : String} {config : ExtensionConfig}
    {dryRun : Bool} {fs : FS} {ops : List FileOperation} {fs' : FS}
    (h : updateRootPackageJson repoPath config dryRun fs = (.ok ops, fs')) :
    ∀ op ∈ ops, ModOpOK op := by
  simp only [updateRootPackageJson, M_run_bind_pure, M_run_bind_existsSync,
    M_run_bind_writeFile, M_run_bind_mkdir, M_run_bind_ofExcept,
    M_run_bind_readFile, M_run_ite, M_run_pure, M_run_throwErr] at h
  repeat'
    first
    | split at h
    | simp only [M_run_bind_pure, M_run_bind_existsSync, M_run_bind_writeFile,
        M_run_bind_mkdir, M_run_bind_ofExcept, M_run_bind_readFile, M_run_ite,
        M_run_pure, M_run_throwErr] at h
  all_goals try simp_all [ModOpOK, pkgJsonOp]
  all_goals
    (obtain ⟨hops, hfs⟩ := h
     subst hops
     intro op hop
     simp only [List.mem_singleton] at hop
     subst hop
     exact ⟨rfl, rfl, rfl, rfl⟩)

theorem updateCiWorkflow_ops {repoPath : String} {config : ExtensionConfig}
    {dryRun : Bool} {fs : FS} {ops : List FileOperation} {fs' : FS}
    (h : updateCiWorkflow repoPath config dryRun fs = (.ok ops, fs')) :
    ∀ op ∈ ops, ModOpOK op := by
  simp only [updateCiWorkflow, M_run_bind_pure, M_run_bind_existsSync,
    M_run_bind_writeFile, M_run_bind_mkdir, M_run_bind_ofExcept,
    M_run_bind_readFile, M_run_ite, M_run_pure, M_run_throwErr] at h
  repeat'
    first
    | split at h
    | simp only [M_run_bind_pure, M_run_bind_existsSync, M_run_bind_writeFile,
        M_run_bind_mkdir, M_run_bind_ofExcept, M_run_bind_readFile, M_run_ite,
        M_run_pure, M_run_throwErr] at h
  all_goals try simp_all [ModOpOK, ciOp]
  all_goals
    (obtain ⟨hops, hfs⟩ := h
     subst hops
     intro op hop
     simp only [List.mem_singleton] at hop
     subst hop
     exact ⟨rfl, rfl, rfl, rfl⟩)

theorem updateCollectAssets_ops {repoPath : String} {config : ExtensionConfig}
    {repoConfig : RepoConfig} {dryRun : Bool} {fs : FS}
    {ops : List FileOperation} {fs' : FS}
    (h : updateCollectAssets repoPath config repoConfig dryRun fs = (.ok ops, fs')) :
    ∀ op ∈ ops, ModOpOK op := by
  simp only [updateCollectAssets, M_run_bind_pure, M_run_bind_existsSync,
    M_run_bind_writeFile, M_run_bind_mkdir, M_run_bind_ofExcept,
    M_run_bind_readFile, M_run_ite, M_run_pure, M_run_throwErr] at h
  repeat'
    first
    | split at h
    | simp only [M_run_bind_pure, M_run_bind_existsSync, M_run_bind_writeFile,
        M_run_bind_mkdir, M_run_bind_ofExcept, M_run_bind_readFile, M_run_ite,
        M_run_pure, M_run_throwErr] at h
  all_goals try simp_all [ModOpOK, collectAssetsOp]
  all_goals
    (obtain ⟨hops, hfs⟩ := h
     subst hops
     intro op hop
     simp only [List.mem_singleton] at hop
     subst hop
     exact ⟨rfl, rfl, rfl, rfl⟩)

theorem updateCopyDist_ops {repoPath : String} {config : ExtensionConfig}
    {dryRun : Bool} {fs : FS} {ops : List FileOperation} {fs' : FS}
    (h : updateCopyDist repoPath config dryRun fs = (.ok ops, fs')) :
    ∀ op ∈ ops, ModOpOK op := by
  simp only [updateCopyDist, M_run_bind_pure, M_run_bind_existsSync,
    M_run_bind_writeFile, M_run_bind_mkdir, M_run_bind_ofExcept,
    M_run_bind_readFile, M_run_ite, M_run_pure, M_run_throwErr] at h
  repeat'
    first
    | split at h
    | simp only [M_run_bind_pure, M_run_bind_existsSync, M_run_bind_writeFile,
        M_run_bind_mkdir, M_run_bind_ofExcept, M_run_bind_readFile, M_run_ite,
        M_run_pure, M_run_throwErr] at h
  all_goals try simp_all [ModOpOK, copyDistOp]
  all_goals
    (obtain ⟨hops, hfs⟩ := h
     subst hops
     intro op hop
     simp only [List.mem_singleton] at hop
     subst hop
     exact ⟨rfl, rfl, rfl, rfl⟩)

theorem updatePackageExtensions_ops {repoPath : String}
    {config : ExtensionConfig} {dryRun : Bool} {fs : FS}
    {ops : List FileOperation} {fs' : FS}
    (h : updatePackageExtensions repoPath config dryRun fs = (.ok ops, fs')) :
    ∀ op ∈ ops, ModOpOK op := by
  simp only [updatePackageExtensions, M_run_bind_pure, M_run_bind_existsSync,
    M_run_bind_writeFile, M_run_bind_mkdir, M_run_bind_ofExcept,
    M_run_bind_readFile, M_run_ite, M_run_pure, M_run_throwErr] at h
  repeat'
    first
    | split at h
    | simp only [M_run_bind_pure, M_run_bind_existsSync, M_run_bind_writeFile,
        M_run_bind_mkdir, M_run_bind_ofExcept, M_run_bind_readFile, M_run_ite,
        M_run_pure, M_run_throwErr] at h
  all_goals try simp_all [ModOpOK, packageExtOp]
  all_goals
    (obtain ⟨hops, hfs⟩ := h
     subst hops
     intro op hop
     simp only [List.mem_singleton] at hop
     subst hop
     exact ⟨rfl, rfl, rfl, rfl⟩)

theorem updateLaunchJson_ops {repoPath : String} {config : ExtensionConfig}
    {dryRun : Bool} {fs : FS} {ops : List FileOperation} {fs' : FS}
    (h : updateLaunchJson repoPath config dryRun fs = (.ok ops, fs')) :
    ∀ op ∈ ops, ModOpOK op := by
  simp only [updateLaunchJson, M_run_bind_pure, M_run_bind_existsSync,
    M_run_bind_writeFile, M_run_bind_mkdir, M_run_bind_ofExcept,
    M_run_bind_readFile, M_run_ite, M_run_pure, M_run_throwErr] at h
  repeat'
    first
    | split at h
    | simp only [M_run_bind_pure, M_run_bind_existsSync, M_run_bind_writeFile,
        M_run_bind_mkdir, M_run_bind_ofExcept, M_run_bind_readFile, M_run_ite,
        M_run_pure, M_run_throwErr] at h
  all_goals try simp_all [ModOpOK, launchOp]
  all_goals
    (obtain ⟨hops, hfs⟩ := h
     subst hops
     intro op hop
     simp only [List.mem_singleton] at hop
     subst hop
     exact ⟨rfl, rfl, rfl, rfl⟩)

theorem updateWorkspaceFile_ops {repoPath : String} {config : ExtensionConfig}
    {dryRun : Bool} {fs : FS} {ops : List FileOperation} {fs' : FS}
    (h : updateWorkspaceFile repoPath config dryRun fs = (.ok ops, fs')) :
    ∀ op ∈ ops, ModOpOK op := by
  simp only [updateWorkspaceFile, M_run_bind_pure, M_run_bind_existsSync,
    M_run_bind_writeFile, M_run_bind_mkdir, M_run_bind_ofExcept,
    M_run_bind_readFile, M_run_ite, M_run_pure, M_run_throwErr] at h
  repeat'
    first
    | split at h
    | simp only [M_run_bind_pure, M_run_bind_existsSync, M_run_bind_writeFile,
        M_run_bind_mkdir, M_run_bind_ofExcept, M_run_bind_readFile, M_run_ite,
        M_run_pure, M_run_throwErr] at h
  all_goals try simp_all [ModOpOK, workspaceOp]
  all_goals
    (obtain ⟨hops, hfs⟩ := h
     subst hops
     intro op hop
     simp only [List.mem_singleton] at hop
     subst hop
     exact ⟨rfl, rfl, rfl, rfl⟩)

theorem modifyExistingFiles_ops {repoPath : String} {config : ExtensionConfig}
    {repoConfig : RepoConfig} {dryRun : Bool} {fs : FS}
    {ops : List FileOperation} {fs' : FS}
    (h : modifyExistingFiles repoPath config repoConfig dryRun fs = (.ok ops, fs')) :
    ∀ op ∈ ops, ModOpOK op := by
  unfold modifyExistingFiles at h
  obtain ⟨o1, fs1, h1, h⟩ := M_bind_ok h
  obtain ⟨o2, fs2, h2, h⟩ := M_bind_ok h
  obtain ⟨o3, fs3, h3, h⟩ := M_bind_ok h
  obtain ⟨o4, fs4, h4, h⟩ := M_bind_ok h
  obtain ⟨o5, fs5, h5, h⟩ := M_bind_ok h
  obtain ⟨o6, fs6, h6, h⟩ := M_bind_ok h
  obtain ⟨o7, fs7, h7, h⟩ := M_bind_ok h
  simp only [M_run_pure, Prod.mk.injEq, Except.ok.injEq] at h
  obtain ⟨hops, hfs⟩ := h
  subst hops
  intro op hop
  simp only [List.mem_append] at hop
  rcases hop with ((((((hop | hop) | hop) | hop) | hop) | hop) | hop)
  · exact updateRootPackageJson_ops h1 op hop
  · exact updateCiWorkflow_ops h2 op hop
  · exact updateCollectAssets_ops h3 op hop
  · exact updateCopyDist_ops h4 op hop
  · exact updatePackageExtensions_ops h5 op hop
  · exact updateLaunchJson_ops h6 op hop
  · exact updateWorkspaceFile_ops h7 op hop

/-- The content field of a rendered create-operation is present exactly in
preview mode. -/
@[simp] theorem isSome_ite_some_none (b : Bool) (x : α) :
    (if b = true then some x else none).isSome = b := by
  cases b <;> simp

theorem processMapping_ops {templatesDir extensionDir : String}
    {data : TemplateData} {dryRun : Bool} {m : FileMapping} {fs : FS}
    {ops : List FileOperation} {fs' : FS}
    (h : processMapping templatesDir extensionDir data dryRun m fs = (.ok ops, fs')) :
    ∀ op ∈ ops, CreOpOK dryRun op := by
  simp only [processMapping, M_run_bind_pure, M_run_bind_existsSync,
    M_run_bind_writeFile, M_run_bind_mkdir, M_run_bind_ofExcept,
    M_run_bind_readFile, M_run_ite, M_run_pure, M_run_throwErr] at h
  repeat'
    first
    | split at h
    | simp only [M_run_bind_pure, M_run_bind_existsSync, M_run_bind_writeFile,
        M_run_bind_mkdir, M_run_bind_ofExcept, M_run_bind_readFile, M_run_ite,
        M_run_pure, M_run_throwErr] at h
  all_goals try simp only [Prod.mk.injEq, Except.ok.injEq] at h
  all_goals try (obtain ⟨hops, hfs⟩ := h; subst hops)
  all_goals simp_all [CreOpOK]

theorem generateNewFilesLoop_ops {templatesDir extensionDir : String}
    {data : TemplateData} {dryRun : Bool} :
    ∀ {ms : List FileMapping} {fs : FS} {ops : List FileOperation} {fs' : FS},
      generateNewFilesLoop templatesDir extensionDir data dryRun ms fs
        = (.ok ops, fs') →
      ∀ op ∈ ops, CreOpOK dryRun op := by
  intro ms
  induction ms with
  | nil =>
    intro fs ops fs' h
    simp only [generateNewFilesLoop, M_run_pure, Prod.mk.injEq,
      Except.ok.injEq] at h
    obtain ⟨h1, h2⟩ := h
    subst h1
    intro op hop
    simp at hop
  | cons m ms ih =>
    intro fs ops fs' h
    unfold generateNewFilesLoop at h
    obtain ⟨o1, fs1, h1, h⟩ := M_bind_ok h
    obtain ⟨o2, fs2, h2, h⟩ := M_bind_ok h
    simp only [M_run_pure, Prod.mk.injEq, Except.ok.injEq] at h
    obtain ⟨hops, hfs⟩ := h
    subst hops
    intro op hop
    rcases List.mem_append.mp hop with hop | hop
    · exact processMapping_ops h1 op hop
    · exact ih h2 op hop

theorem CreOpOK_fields {dryRun : Bool} {op : FileOperation}
    (h : CreOpOK dryRun op) : OpFieldsOK dryRun op := by
  obtain ⟨ht, hd, hc, hco⟩ := h
  constructor
  · intro hm
    rw [ht] at hm
    cases hm
  · intro _
    exact ⟨hd, hc, hco⟩

theorem ModOpOK_fields {dryRun : Bool} {op : FileOperation}
    (h : ModOpOK op) : OpFieldsOK dryRun op := by
  obtain ⟨ht, hd, hc, hco⟩ := h
  constructor
  · intro _
    exact ⟨hd, hc, hco⟩
  · intro hm
    rw [ht] at hm
    cases hm

/-- Every operation a run returns obeys the field discipline: modify
operations always carry change summaries and a diff and never content;
create operations never carry a diff or change summaries, and carry content
only in preview mode. -/
theorem generateExtension_ops {ctx : GenerationContext} {fs : FS}
    {r : GenerationResult} {fs' : FS}
    (h : generateExtension ctx fs = (.ok r, fs')) :
    ∀ op ∈ r.operations, OpFieldsOK ctx.options.dryRun op := by
  unfold generateExtension at h
  simp only [M_run_bind_existsSync, M_run_ite] at h
  split at h
  · simp only [M_run_pure, Prod.mk.injEq, Except.ok.injEq] at h
    obtain ⟨hr, hfs⟩ := h
    subst hr
    intro op hop
    simp at hop
  · unfold generateBody at h
    rcases M_tryCatch_ok h with hbody | ⟨e, fs₁, hb, hh⟩
    · obtain ⟨u, fsm, hm, hbody⟩ := M_bind_ok hbody
      obtain ⟨newFiles, fs₁, hgen, hbody⟩ := M_bind_ok hbody
      rcases M_tryCatch_ok hbody with hmod | ⟨e, fs₂, hb2, hh2⟩
      · obtain ⟨mods, fs₂, hmods, hmod⟩ := M_bind_ok hmod
        simp only [M_run_pure, Prod.mk.injEq, Except.ok.injEq] at hmod
        obtain ⟨hr, hfs⟩ := hmod
        subst hr
        intro op hop
        rcases List.mem_append.mp hop with hop | hop
        · exact CreOpOK_fields (generateNewFilesLoop_ops hgen op hop)
        · exact ModOpOK_fields (modifyExistingFiles_ops hmods op hop)
      · simp only [M_run_pure, Prod.mk.injEq, Except.ok.injEq] at hh2
        obtain ⟨hr, hfs⟩ := hh2
        subst hr
        intro op hop
        exact CreOpOK_fields (generateNewFilesLoop_ops hgen op hop)
    · simp only [M_run_pure, Prod.mk.injEq, Except.ok.injEq] at hh
      obtain ⟨hr, hfs⟩ := hh
      subst hr
      intro op hop
      simp at hop

/-- The operations of the first apply-mode patch pass over the fresh
repository. -/
def patchPass1Ops : List FileOperation :=
  match patchPass1.1 with
  | .ok ops => ops
  | .error _ => []

/-- The operations of the second apply-mode patch pass. -/
def patchPass2Ops : List FileOperation :=
  match patchPass2.1 with
  | .ok ops => ops
  | .error _ => []

/-- The operations of the preview pass over the already-patched repository. -/
def patchAlreadyPatchedOps : List FileOperation :=
  match patchAlreadyPatched.1 with
  | .ok ops => ops
  | .error _ => []

/-- C3: if the extension directory already exists and `force` is not set,
`generateExtension` returns success = false with an empty operations list and
exactly one error string naming the existing path (the message embeds the
directory), and the file tree is returned untouched — the guard runs before
any write or directory creation. -/
theorem c3_precondition_failure (ctx : GenerationContext) (fs : FS)
    (hex : fs.pathExists (extensionDirOf ctx) = true)
    (hforce : ctx.options.force = false) :
    generateExtension ctx fs =
      (.ok { success := false, operations := [], branchName := ctx.branchName,
             errors := ["Extension directory already exists: " ++ extensionDirOf ctx
               ++ ". Use --force to overwrite."] }, fs) := by
  unfold generateExtension
  simp [M_run_bind_existsSync, M_run_ite, hex, hforce]

/-- C3 witness: the guard fires on a repository whose `repo/vscode/python`
directory exists. -/
theorem c3_precondition_failure_witness :
    generateExtension (mkCtx pythonConfig false false) fsDirExists =
      (.ok { success := false, operations := [],
             branchName := "feature/x",
             errors := ["Extension directory already exists: repo/vscode/python. Use --force to overwrite."] },
        fsDirExists) :=
  c3_precondition_failure (mkCtx pythonConfig false false) fsDirExists
    (by decide) rfl

/-- C2 counterexample: in apply mode (no dry run) every one of the seven
staged modify-operations of a full patch pass carries a populated diff, so
"in apply mode staged operations carry neither content nor diff" is false on
the code (the `diff:` field of each staged operation is not gated on the
mode; only `content` of rendered create-operations is). -/
theorem c2_preview_fields_counterexample :
    (patchPass1Ops.filter (fun o => o.diff.isSome)).length = 7 ∧
    (patchPass1Ops.filter (fun o => o.type = OpType.modify)).length = 7 := by
  constructor
  · rfl
  · rfl

/-- C2 amended: the content field of a create-operation is populated only in
preview mode (and never for placeholder creates), while modify-operations
carry change summaries and a diff in both modes and never content; the
preview-only population holds for `content` but not for `diff`. -/
theorem c2_preview_fields_amended {ctx : GenerationContext} {fs : FS}
    {r : GenerationResult} {fs' : FS}
    (h : generateExtension ctx fs = (.ok r, fs')) :
    ∀ op ∈ r.operations, OpFieldsOK ctx.options.dryRun op :=
  generateExtension_ops h

/-- C2 witness: the amended field discipline instantiated on the scenario-A
preview run, at the staged root-manifest operation. -/
theorem c2_preview_fields_witness :
    OpFieldsOK true (pkgJsonOp "python") := by
  have h : generateExtension (mkCtx pythonConfig true false) fsFresh
      = (.ok (resultOf runScenarioA), runScenarioA.2) := rfl
  exact c2_preview_fields_amended h (pkgJsonOp "python") (by decide)

/-- C6: in preview (dry-run) mode a generation run leaves the entire file
tree — file contents and directory set — identical to its state before the
run. -/
theorem c6_no_write_guarantee (ctx : GenerationContext) (fs : FS)
    (h : ctx.options.dryRun = true) :
    (generateExtension ctx fs).2 = fs := by
  have hbody : PreservesFS (generateBody ctx (buildTemplateData ctx.config)
      (extensionDirOf ctx)) := by
    unfold generateBody
    apply preservesFS_tryCatch
    · apply preservesFS_bind
      · unfold mkdirPhase
        rw [h]
        simp only [Bool.not_true, Bool.false_eq_true, if_false]
        exact preservesFS_pure _
      · intro u
        rw [h]
        apply preservesFS_bind (generateNewFiles_dry _ _ _)
        intro newFiles
        apply preservesFS_tryCatch
        · apply preservesFS_bind (modifyExistingFiles_dry _ _ _)
          intro mods
          exact preservesFS_pure _
        · intro e
          exact preservesFS_pure _
    · intro e
      exact preservesFS_pure _
  unfold generateExtension
  simp only [M_run_bind_existsSync, M_run_ite]
  split
  · rfl
  · exact hbody fs

/-- C6 witness: the preview scenario-A run returns the fixture tree
unchanged. -/
theorem c6_no_write_guarantee_witness :
    (generateExtension (mkCtx pythonConfig true false) fsFresh).2 = fsFresh :=
  c6_no_write_guarantee (mkCtx pythonConfig true false) fsFresh rfl

/-- A catch whose handler is pure always returns a value. -/
theorem M_tryCatch_total (x : M α) (g : String → α) (fs : FS) :
    ∃ a fs', M.tryCatch x (fun e => Pure.pure (g e)) fs = (.ok a, fs') := by
  simp only [M_run_tryCatch]
  rcases hx : x fs with ⟨res, fs1⟩
  cases res
  · exact ⟨g _, fs1, rfl⟩
  · exact ⟨_, fs1, rfl⟩

/-- The create-operations staged by the generate phase over the repository
with an unparseable root manifest. -/
def badNewFiles : List FileOperation :=
  match (generateNewFiles "tmpl" "repo/vscode/python" (buildTemplateData pythonConfig)
      true fsBadManifest).1 with
  | .ok ops => ops
  | .error _ => []

/-- The message of the exception the patch phase throws on the unparseable
root manifest. -/
def badModErr : String :=
  match (modifyExistingFiles "repo" pythonConfig repoCfg true fsBadManifest).1 with
  | .error e => e
  | .ok _ => ""

/-- C10: `generateExtension` never propagates an exception to its caller —
every run returns a `GenerationResult` value (first conjunct); and when the
patch phase throws after the generate phase completed, the caught run returns
success = false, the exception's message as the sole recorded error, and the
create-operations already staged before the failure (no rollback of the
operations list, second conjunct). -/
theorem c10_no_exception :
    (∀ (ctx : GenerationContext) (fs : FS),
      ∃ r fs', generateExtension ctx fs = (.ok r, fs')) ∧
    (∀ (ctx : GenerationContext) (td : TemplateData) (dir : String)
       (fs fs1 fs2 fs3 : FS) (newFiles : List FileOperation) (e : String),
       mkdirPhase dir ctx.options.dryRun fs = (.ok () , fs1) →
       generateNewFiles ctx.templatesDir dir td ctx.options.dryRun fs1
         = (.ok newFiles, fs2) →
       modifyExistingFiles ctx.repoPath ctx.config ctx.repoConfig
         ctx.options.dryRun fs2 = (.error e, fs3) →
       generateBody ctx td dir fs =
         (.ok { success := false, operations := newFiles,
                branchName := ctx.branchName, errors := [e] }, fs3)) := by
  constructor
  · intro ctx fs
    unfold generateExtension
    simp only [M_run_bind_existsSync, M_run_ite]
    split
    · exact ⟨_, _, rfl⟩
    · exact M_tryCatch_total _ _ fs
  · intro ctx td dir fs fs1 fs2 fs3 newFiles e hmk hgen hmod
    unfold generateBody
    simp only [M_run_tryCatch, M_run_bind, hmk, hgen, hmod, M_run_pure]

/-- C10 witness: on the repository whose root `package.json` is not JSON, the
patch phase throws, the run is caught, and the nine create-operations staged
by the generate phase survive in the returned result together with the parse
error's message. -/
theorem c10_no_exception_witness :
    generateBody (mkCtx pythonConfig true false) (buildTemplateData pythonConfig)
        "repo/vscode/python" fsBadManifest =
      (.ok { success := false, operations := badNewFiles,
             branchName := "feature/x", errors := [badModErr] }, fsBadManifest) :=
  c10_no_exception.2 (mkCtx pythonConfig true false) (buildTemplateData pythonConfig)
    "repo/vscode/python" fsBadManifest fsBadManifest fsBadManifest fsBadManifest
    badNewFiles badModErr rfl rfl rfl

/-- C1 counterexample: a second apply-mode patching pass over the repository
the first pass produced stages one further modify-operation — the root
manifest's — not zero; and the root-manifest strategy stages its operation
even on a repository whose workspaces array already lists the extension (its
presence test holds), because the operation push is not under the presence
test. -/
theorem c1_patch_idempotence_counterexample :
    patchPass2Ops.map (fun o => o.path) = ["package.json"] ∧
    patchAlreadyPatchedOps.map (fun o => o.path) = ["package.json"] :=
  ⟨rfl, rfl⟩

/-- C1 amended: a second identical patching pass stages exactly one
modify-operation, the root-manifest one (every other strategy's presence test
holds and stages nothing), and rewrites every file to identical bytes: the
file tree is a fixed point after the first pass even though the staged
operation list is not empty. -/
theorem c1_patch_idempotence_amended :
    patchPass2Ops.map (fun o => o.path) = ["package.json"] ∧
    patchPass2.2 = patchPass1.2 :=
  ⟨rfl, rfl⟩

/-- C5: on the fresh repository with all templates, the proxy-required
`python` run stages exactly the nine create-operations including the proxy
server file and seven modify-operations; the proxy-less `rust` run stages
exactly eight create-operations with no proxy file and seven
modify-operations; and the applied `rust` run leaves the manifest workspaces
list with exactly one new entry `vscode/rust` in sorted position (the
preview run leaves the original two-entry list). -/
theorem c5_proxy_and_counts :
    createPaths (resultOf runScenarioA) =
      ["vscode/python/package.json", "vscode/python/tsconfig.json",
       "vscode/python/webpack.config.js", "vscode/python/.eslintrc.json",
       "vscode/python/LICENSE.md", "vscode/python/src/extension.ts",
       "vscode/python/src/PythonExternalProviderManager.ts",
       "vscode/python/src/PythonVscodeProxyServer.ts",
       "vscode/python/src/utilities/constants.ts"] ∧
    (modifyPaths (resultOf runScenarioA)).length = 7 ∧
    createPaths (resultOf runScenarioB) =
      ["vscode/rust/package.json", "vscode/rust/tsconfig.json",
       "vscode/rust/webpack.config.js", "vscode/rust/.eslintrc.json",
       "vscode/rust/LICENSE.md", "vscode/rust/src/extension.ts",
       "vscode/rust/src/RustExternalProviderManager.ts",
       "vscode/rust/src/utilities/constants.ts"] ∧
    (modifyPaths (resultOf runScenarioB)).length = 7 ∧
    workspacesAfter runScenarioB = some ["vscode/core", "vscode/rust", "vscode/zig"] ∧
    workspacesAfter runScenarioA = some ["vscode/core", "vscode/zig"] :=
  ⟨rfl, rfl, rfl, rfl, rfl, rfl⟩

/-- Preview run over the repository whose template directory is missing
`constants.ts.hbs`. -/
def runMissingTemplate : Except String GenerationResult × FS :=
  generateExtension (mkCtx pythonConfig true false) fsMissingOne

/-- C4: a mapping whose template file is absent stages exactly the
placeholder create-operation whose description says "not found - create
manually" and touches nothing (first conjunct); the loop then continues with
the remaining mappings, prepending the placeholder to whatever they stage
(second conjunct); and the full run over the fixture missing one template
still returns success = true with all nine create-operations staged, the
placeholder among them (third conjunct). -/
theorem c4_template_missing :
    (∀ (templatesDir extensionDir : String) (data : TemplateData) (dryRun : Bool)
       (m : FileMapping) (fs : FS),
       m.condition ≠ some false →
       fs.pathExists (pathJoin templatesDir m.template) = false →
       processMapping templatesDir extensionDir data dryRun m fs =
         (.ok [placeholderOp (pathJoin extensionDir m.output) m.template], fs)) ∧
    (∀ (templatesDir extensionDir : String) (data : TemplateData) (dryRun : Bool)
       (m : FileMapping) (ms : List FileMapping) (fs fs' : FS)
       (rest : List FileOperation),
       m.condition ≠ some false →
       fs.pathExists (pathJoin templatesDir m.template) = false →
       generateNewFilesLoop templatesDir extensionDir data dryRun ms fs
         = (.ok rest, fs') →
       generateNewFilesLoop templatesDir extensionDir data dryRun (m :: ms) fs
         = (.ok (placeholderOp (pathJoin extensionDir m.output) m.template :: rest),
            fs')) ∧
    ((resultOf runMissingTemplate).success = true ∧
     placeholderOp "repo/vscode/python/src/utilities/constants.ts" "constants.ts.hbs"
       ∈ (resultOf runMissingTemplate).operations ∧
     (createPaths (resultOf runMissingTemplate)).length = 9) := by
  have hA : ∀ (templatesDir extensionDir : String) (data : TemplateData)
      (dryRun : Bool) (m : FileMapping) (fs : FS),
      m.condition ≠ some false →
      fs.pathExists (pathJoin templatesDir m.template) = false →
      processMapping templatesDir extensionDir data dryRun m fs =
        (.ok [placeholderOp (pathJoin extensionDir m.output) m.template], fs) := by
    intro td ed data dr m fs hcond hmiss
    simp [processMapping, if_neg hcond, M_run_bind_existsSync, M_run_ite, hmiss,
      placeholderOp]
  refine ⟨hA, ?_, by decide⟩
  intro td ed data dr m ms fs fs' rest hcond hmiss hrest
  show (processMapping td ed data dr m >>= fun ops =>
    generateNewFilesLoop td ed data dr ms >>= fun r => Pure.pure (ops ++ r)) fs = _
  rw [M_run_bind, hA td ed data dr m fs hcond hmiss]
  simp [M_run_bind, hrest, M_run_pure]

/-- C4 witness: the missing `constants.ts.hbs` mapping stages its placeholder
on the fixture file tree. -/
theorem c4_template_missing_witness :
    processMapping "tmpl" "repo/vscode/python" (buildTemplateData pythonConfig) true
        { template := "constants.ts.hbs", output := "src/utilities/constants.ts" }
        fsMissingOne =
      (.ok [placeholderOp "repo/vscode/python/src/utilities/constants.ts"
        "constants.ts.hbs"], fsMissingOne) :=
  c4_template_missing.1 "tmpl" "repo/vscode/python" (buildTemplateData pythonConfig)
    true _ fsMissingOne (by decide) (by decide)

/-- A first-occurrence replacement whose pattern does not occur is the
identity. -/
theorem replaceFirstAux_no_match (pat repl : List Char) :
    ∀ l, listInfix pat l = false → replaceFirstAux pat repl l = l := by
  intro l
  induction l with
  | nil =>
    intro h
    simp only [listInfix, decide_eq_false_iff_not] at h
    simp only [replaceFirstAux, if_neg h]
  | cons c rest ih =>
    intro h
    simp only [listInfix, Bool.or_eq_false_iff] at h
    obtain ⟨h1, h2⟩ := h
    simp only [replaceFirstAux, h1, Bool.false_eq_true, if_false, ih h2]

/-- String version: `replace` with an absent pattern returns the string. -/
theorem replaceFirst_no_match (s pat repl : String)
    (h : jsIncludes s pat = false) : replaceFirst s pat repl = s := by
  unfold jsIncludes at h
  unfold replaceFirst
  rw [replaceFirstAux_no_match _ _ _ h]

/-- Writing back the value already stored leaves the association list
unchanged. -/
theorem setAssoc_self : ∀ (l : List (String × String)) (k v : String),
    l.lookup k = some v → setAssoc l k v = l := by
  intro l k v
  induction l with
  | nil => intro h; simp [List.lookup] at h
  | cons p rest ih =>
    obtain ⟨k', v'⟩ := p
    intro h
    simp only [List.lookup] at h
    by_cases hk : k == k'
    · simp only [hk, if_true, Option.some.injEq] at h
      simp only [beq_iff_eq] at hk
      subst hk
      simp [setAssoc, h]
    · simp only [hk, Bool.false_eq_true, if_false] at h
      simp only [beq_iff_eq] at hk
      simp [setAssoc, Ne.symm hk, ih h]

/-- A path whose file entry is present exists. -/
theorem FS.pathExists_of_lookup {fs : FS} {p c : String}
    (h : fs.files.lookup p = some c) : fs.pathExists p = true := by
  simp [FS.pathExists, h]

/-- The operations of the apply-mode pass over the repository whose CI
workflow contains no anchor. -/
def patchAnchorMissOps : List FileOperation :=
  match patchAnchorMiss.1 with
  | .ok ops => ops
  | .error _ => []

/-- C9 counterexample: on a CI workflow containing neither the package-script
reference nor the "Upload VSIX artifacts" anchor, the apply-mode pass stages
the CI modify-operation — whose changes field reports an added step — while
the file's content is byte-identical before and after (the whole tree is
unchanged): the situation is not surfaced as skipped or failed. -/
theorem c9_anchor_miss_counterexample :
    patchAnchorMissOps = [ciOp pythonConfig] ∧
    patchAnchorMiss.2.files.lookup "repo/.github/workflows/ci-repo.yml"
      = some "steps:\n" ∧
    patchAnchorMiss.2 = fsAnchorMiss :=
  ⟨rfl, rfl, rfl⟩

/-- C9 amended: for each of the four anchor-pattern strategies (CI workflow,
collect-assets, copy-dist, package-extensions), when the target file exists,
its content passes the absence presence-test, and the anchor pattern does not
occur, the strategy leaves the file tree completely unchanged (in apply mode
it rewrites the original bytes) yet still stages its modify-operation
reporting the change — anchor miss is silent, never a skip or failure. -/
theorem c9_anchor_miss_amended :
    (∀ (rp : String) (config : ExtensionConfig) (dr : Bool) (fs : FS) (c : String),
      fs.files.lookup (pathJoin rp ".github/workflows/ci-repo.yml") = some c →
      jsIncludes c ("package-" ++ config.language) = false →
      jsIncludes c "\n      - name: Upload VSIX artifacts" = false →
      updateCiWorkflow rp config dr fs = (.ok [ciOp config], fs)) ∧
    (∀ (rp : String) (config : ExtensionConfig) (rc : RepoConfig) (dr : Bool)
       (fs : FS) (c : String),
      fs.files.lookup (pathJoin rp "scripts/collect-assets.js") = some c →
      jsIncludes c ("\"" ++ config.provider.binaryName ++ "\"") = false →
      jsIncludes c "const ASSETS = \x7b" = false →
      updateCollectAssets rp config rc dr fs =
        (.ok [collectAssetsOp config.provider.binaryName
          (jsOrStr (config.provider.assetSource.map (fun a => a.repository))
            (rc.org ++ "/" ++ rc.repo))
          (jsOrStr (config.provider.assetSource.map (fun a => a.releaseTag))
            rc.releaseTag)], fs)) ∧
    (∀ (rp : String) (config : ExtensionConfig) (dr : Bool) (fs : FS) (c : String),
      fs.files.lookup (pathJoin rp "scripts/copy-dist.js") = some c →
      jsIncludes c ("\"" ++ config.language ++ "\"") = false →
      jsIncludes c "const EXTENSIONS = \x7b" = false →
      updateCopyDist rp config dr fs =
        (.ok [copyDistOp config.language config.provider.binaryName], fs)) ∧
    (∀ (rp : String) (config : ExtensionConfig) (dr : Bool) (fs : FS) (c : String),
      fs.files.lookup (pathJoin rp "scripts/package-extensions.js") = some c →
      jsIncludes c ("\"" ++ config.language ++ "\"") = false →
      jsIncludes c "const VALID_EXTENSIONS = [" = false →
      updatePackageExtensions rp config dr fs =
        (.ok [packageExtOp config.language], fs)) := by
  refine ⟨?_, ?_, ?_, ?_⟩
  · intro rp config dr fs c hlook hinc hanch
    unfold updateCiWorkflow
    simp only [M_run_bind_existsSync, M_run_ite, FS.pathExists_of_lookup hlook,
      if_true, M_run_bind_readFile, hlook, hinc, Bool.not_false, if_true,
      replaceFirst_no_match c _ _ hanch]
    cases dr
    · simp only [Bool.not_false, if_true, M_run_bind_writeFile,
        setAssoc_self fs.files _ c hlook, M_run_pure]
    · simp only [Bool.not_true, Bool.false_eq_true, if_false, M_run_bind_pure,
        M_run_pure]
  · intro rp config rc dr fs c hlook hinc hanch
    unfold updateCollectAssets
    simp only [M_run_bind_existsSync, M_run_ite, FS.pathExists_of_lookup hlook,
      if_true, M_run_bind_readFile, hlook, hinc, Bool.not_false, if_true,
      replaceFirst_no_match c _ _ hanch]
    cases dr
    · simp only [Bool.not_false, if_true, M_run_bind_writeFile,
        setAssoc_self fs.files _ c hlook, M_run_pure]
    · simp only [Bool.not_true, Bool.false_eq_true, if_false, M_run_bind_pure,
        M_run_pure]
  · intro rp config dr fs c hlook hinc hanch
    unfold updateCopyDist
    simp only [M_run_bind_existsSync, M_run_ite, FS.pathExists_of_lookup hlook,
      if_true, M_run_bind_readFile, hlook, hinc, Bool.not_false, if_true,
      replaceFirst_no_match c _ _ hanch]
    cases dr
    · simp only [Bool.not_false, if_true, M_run_bind_writeFile,
        setAssoc_self fs.files _ c hlook, M_run_pure]
    · simp only [Bool.not_true, Bool.false_eq_true, if_false, M_run_bind_pure,
        M_run_pure]
  · intro rp config dr fs c hlook hinc hanch
    unfold updatePackageExtensions
    simp only [M_run_bind_existsSync, M_run_ite, FS.pathExists_of_lookup hlook,
      if_true, M_run_bind_readFile, hlook, hinc, Bool.not_false, if_true,
      replaceFirst_no_match c _ _ hanch]
    cases dr
    · simp only [Bool.not_false, if_true, M_run_bind_writeFile,
        setAssoc_self fs.files _ c hlook, M_run_pure]
    · simp only [Bool.not_true, Bool.false_eq_true, if_false, M_run_bind_pure,
        M_run_pure]

/-- C9 witness: the CI strategy on the anchor-less workflow `steps:` stages
its operation and returns the tree unchanged, in apply mode. -/
theorem c9_anchor_miss_witness :
    updateCiWorkflow "repo" pythonConfig false fsAnchorMiss =
      (.ok [ciOp pythonConfig], fsAnchorMiss) :=
  c9_anchor_miss_amended.1 "repo" pythonConfig false fsAnchorMiss "steps:\n"
    rfl (by decide) (by decide)

/-- Prepending output to the renderer state commutes with one scanner step. -/
theorem renderStep_shift (ctx : String → Option String) (o : List Char)
    (st : RState) (c : Char) :
    renderStep ctx { out := o ++ st.out, mode := st.mode } c =
      { out := o ++ (renderStep ctx st c).out,
        mode := (renderStep ctx st c).mode } := by
  obtain ⟨out, mode⟩ := st
  cases mode <;> simp only [renderStep] <;> split <;>
    simp [List.append_assoc]

/-- Prepending output commutes with the whole renderer fold. -/
theorem foldl_render_shift (ctx : String → Option String) (o : List Char) :
    ∀ (cs : List Char) (st : RState),
    cs.foldl (renderStep ctx) { out := o ++ st.out, mode := st.mode } =
      { out := o ++ (cs.foldl (renderStep ctx) st).out,
        mode := (cs.foldl (renderStep ctx) st).mode } := by
  intro cs
  induction cs with
  | nil => intro st; simp [List.foldl]
  | cons c cs ih =>
    intro st
    simp only [List.foldl]
    rw [renderStep_shift]
    exact ih (renderStep ctx st c)

/-- In text mode the renderer copies mustache-free input to the output. -/
theorem foldl_render_text (ctx : String → Option String) :
    ∀ (cs : List Char), cs.all (fun c => c ≠ '\x7b') = true →
    ∀ o, cs.foldl (renderStep ctx) { out := o, mode := RMode.text } =
      { out := o ++ cs, mode := RMode.text } := by
  intro cs
  induction cs with
  | nil => intro h o; simp [List.foldl]
  | cons c cs ih =>
    intro h o
    simp only [List.all_cons, Bool.and_eq_true, decide_eq_true_eq] at h
    simp only [List.foldl, renderStep, if_neg h.1]
    rw [ih h.2]
    simp

/-- Inside a mustache expression the renderer accumulates the name until a
closing brace. -/
theorem foldl_render_expr (ctx : String → Option String) :
    ∀ (cs : List Char), cs.all (fun c => c ≠ '\x7d') = true →
    ∀ o acc, cs.foldl (renderStep ctx) { out := o, mode := RMode.expr acc } =
      { out := o, mode := RMode.expr (acc ++ cs) } := by
  intro cs
  induction cs with
  | nil => intro h o acc; simp [List.foldl]
  | cons c cs ih =>
    intro h o acc
    simp only [List.all_cons, Bool.and_eq_true, decide_eq_true_eq] at h
    simp only [List.foldl, renderStep, if_neg h.1]
    rw [ih h.2]
    simp

/-- The preview run over the template whose one mustache expression resolves
to no context field. -/
def runUnresolvedResult : GenerationResult := resultOf runUnresolved

/-- C7 counterexample: rendering the template "Hello \x7b\x7bmissing\x7d\x7d!"
— whose placeholder the context does not resolve — succeeds, the run reports
success with an empty error list, and the one rendered content is "Hello !":
the placeholder is dropped silently, no error names the template or the
field. -/
theorem c7_unresolved_counterexample :
    runUnresolvedResult.success = true ∧
    runUnresolvedResult.errors = [] ∧
    runUnresolvedResult.operations.filterMap (fun o => o.content) = ["Hello !"] :=
  ⟨rfl, rfl, rfl⟩

/-- C7 amended: in the engine's default non-strict configuration an
unresolved placeholder never surfaces an error — for every template of the
form `pre\x7b\x7bname\x7d\x7dpost` (no mustache opener in `pre`, no closer in
`name`) whose `name` the context does not resolve, rendering returns the
rendering of `post` prefixed by `pre`, the placeholder replaced by the empty
string. -/
theorem c7_unresolved_amended (pre name post : String)
    (ctx : String → Option String)
    (hpre : pre.data.all (fun c => c ≠ '\x7b') = true)
    (hname : name.data.all (fun c => c ≠ '\x7d') = true)
    (hctx : ctx name = none) :
    hbRender (pre ++ "\x7b\x7b" ++ name ++ "\x7d\x7d" ++ post) ctx =
      (hbRender post ctx).map (fun r => pre ++ r) := by
  have hdata : (pre ++ "\x7b\x7b" ++ name ++ "\x7d\x7d" ++ post).data
      = pre.data ++ ('\x7b' :: '\x7b' ::
          (name.data ++ ('\x7d' :: '\x7d' :: post.data))) := by
    simp [String.data_append]
  unfold hbRender
  rw [hdata, List.foldl_append]
  rw [foldl_render_text ctx pre.data hpre []]
  simp only [List.nil_append, List.foldl]
  have h1 : renderStep ctx { out := pre.data, mode := RMode.text } '\x7b'
      = { out := pre.data, mode := RMode.brace } := by
    simp [renderStep]
  have h2 : renderStep ctx { out := pre.data, mode := RMode.brace } '\x7b'
      = { out := pre.data, mode := RMode.expr [] } := by
    simp [renderStep]
  rw [h1, h2, List.foldl_append, foldl_render_expr ctx name.data hname pre.data []]
  simp only [List.nil_append, List.foldl]
  have h3 : renderStep ctx { out := pre.data, mode := RMode.expr name.data } '\x7d'
      = { out := pre.data, mode := RMode.exprClose name.data } := by
    simp [renderStep]
  have h4 : renderStep ctx { out := pre.data, mode := RMode.exprClose name.data } '\x7d'
      = { out := pre.data, mode := RMode.text } := by
    simp [renderStep, hctx]
  rw [h3, h4]
  have h5 : ({ out := pre.data, mode := RMode.text } : RState)
      = { out := pre.data ++ ([] : List Char), mode := RMode.text } := by
    simp
  rw [h5, foldl_render_shift ctx pre.data post.data { out := [], mode := RMode.text }]
  cases hm : (post.data.foldl (renderStep ctx) { out := [], mode := RMode.text }).mode <;>
    simp [Except.map, String.ext_iff, List.append_assoc]

/-- C7 witness: the amended silent-substitution law instantiated on the
fixture template and the python template context. -/
theorem c7_unresolved_witness :
    hbRender ("Hello " ++ "\x7b\x7b" ++ "missing" ++ "\x7d\x7d" ++ "!")
        (tdCtx (buildTemplateData pythonConfig)) =
      (hbRender "!" (tdCtx (buildTemplateData pythonConfig))).map
        (fun r => "Hello " ++ r) :=
  c7_unresolved_amended "Hello " "missing" "!"
    (tdCtx (buildTemplateData pythonConfig)) (by decide) (by decide) rfl
/-! ## The relaxed-JSON round trip on workspace files -/

/-- A plain character differs from every non-plain character. -/
theorem plainChar_ne {c d : Char} (h : plainChar c = true)
    (hd : plainChar d = false) : c ≠ d := by
  intro he
  rw [he, hd] at h
  exact Bool.false_ne_true h

/-- Plain characters are not JSON whitespace. -/
theorem plainChar_not_ws {c : Char} (h : plainChar c = true) :
    isJsWs c = false := by
  simp only [isJsWs, Bool.decide_or, Bool.or_eq_false_iff, decide_eq_false_iff_not]
  exact ⟨plainChar_ne h (by decide), plainChar_ne h (by decide),
    plainChar_ne h (by decide), plainChar_ne h (by decide)⟩

/-- Plain characters escape to themselves inside a JSON string literal. -/
theorem escapeChar_plain {c : Char} (h : plainChar c = true) :
    escapeChar c = [c] := by
  simp only [escapeChar,
    if_neg (plainChar_ne h (show plainChar '"' = false by decide)),
    if_neg (plainChar_ne h (show plainChar '\\' = false by decide)),
    if_neg (plainChar_ne h (show plainChar '\n' = false by decide)),
    if_neg (plainChar_ne h (show plainChar '\t' = false by decide)),
    if_neg (plainChar_ne h (show plainChar '\r' = false by decide))]

/-- A string of plain characters is its own JSON escape. -/
theorem escapeString_plain (p : String) (h : plainPath p = true) :
    escapeString p = p := by
  have hall : p.data.all plainChar = true := by
    unfold plainPath at h
    rcases hd : p.data with _ | ⟨c, rest⟩
    · rw [hd] at h; exact absurd h (Bool.false_ne_true)
    · rw [hd] at h; exact h
  unfold escapeString
  have : ∀ l : List Char, l.all plainChar = true → l.flatMap escapeChar = l := by
    intro l
    induction l with
    | nil => intro _; rfl
    | cons c rest ih =>
      intro hl
      simp only [List.all_cons, Bool.and_eq_true] at hl
      simp only [List.flatMap_cons, escapeChar_plain hl.1, ih hl.2,
        List.singleton_append]
  rw [this p.data hall]

/-- The stringifier prints one folder entry at depth 2 as its two-space
indented three-line block. -/
theorem stringify_wsFolderEntry (p : String) (f : Nat) (h : plainPath p = true) :
    stringifyVF (f + 2) (wsFolderEntry p) 2
      = "\x7b\n      \"path\": \"" ++ p ++ "\"\n    \x7d" := by
  show stringifyVF ((f + 1) + 1) (wsFolderEntry p) 2 = _
  simp only [wsFolderEntry, stringifyVF, stringifyFieldsWith, jsonInd,
    escapeString_plain p h]
  apply String.ext
  simp only [String.data_append, List.append_assoc]
  rfl

/-- The stringifier prints the folder entries of a non-empty plain path list
as the comma-and-newline joined item blocks. -/
theorem stringify_wsItems (f : Nat) :
    ∀ ps : List String, ps.all plainPath = true → ps ≠ [] →
    stringifyItemsWith (stringifyVF (f + 2)) (ps.map wsFolderEntry) 2
      = wsItemsText ps := by
  intro ps
  induction ps with
  | nil => intro _ hne; exact absurd rfl hne
  | cons p rest ih =>
    intro hall _
    simp only [List.all_cons, Bool.and_eq_true] at hall
    cases rest with
    | nil =>
      simp only [List.map_cons, List.map_nil, stringifyItemsWith, wsItemsText,
        stringify_wsFolderEntry p f hall.1, jsonInd, wsItemText]
      apply String.ext
      simp only [String.data_append, List.append_assoc]
      rfl
    | cons q rest2 =>
      simp only [List.map_cons, stringifyItemsWith, wsItemsText,
        stringify_wsFolderEntry p f hall.1, jsonInd]
      rw [show (List.map wsFolderEntry rest2) = rest2.map wsFolderEntry from rfl]
      have hrec := ih hall.2 (by simp)
      simp only [List.map_cons] at hrec
      rw [hrec, wsItemText]
      apply String.ext
      simp only [String.data_append, List.append_assoc]
      rfl


/-- `stringifyVF` with four fuel levels to spare prints a non-empty plain
workspace value as its canonical strict text. -/
theorem stringify_wsJson_aux (f : Nat) (ps : List String)
    (hall : ps.all plainPath = true) (hne : ps ≠ []) :
    stringifyVF (f + 4) (wsJson ps) 0 = wsText ps := by
  obtain ⟨p, rest, rfl⟩ : ∃ p rest, ps = p :: rest := by
    cases ps with
    | nil => exact absurd rfl hne
    | cons p rest => exact ⟨p, rest, rfl⟩
  have e1 : ∀ v : Json, stringifyVF (f + 4) (.obj [("folders", v)]) 0
      = "\x7b\n" ++ stringifyFieldsWith (stringifyVF (f + 3)) [("folders", v)] 1
        ++ "\n" ++ jsonInd 0 ++ "\x7d" := fun v => rfl
  have e2 : ∀ v : Json, stringifyFieldsWith (stringifyVF (f + 3)) [("folders", v)] 1
      = jsonInd 1 ++ "\"" ++ escapeString "folders" ++ "\": "
        ++ stringifyVF (f + 3) v 1 := fun v => rfl
  have e3 : ∀ (x : Json) (xs : List Json), stringifyVF (f + 3) (.arr (x :: xs)) 1
      = "[\n" ++ stringifyItemsWith (stringifyVF (f + 2)) (x :: xs) 2 ++ "\n"
        ++ jsonInd 1 ++ "]" := fun x xs => rfl
  have hitems := stringify_wsItems f (p :: rest) hall (List.cons_ne_nil p rest)
  simp only [List.map_cons] at hitems
  rw [wsJson, List.map_cons, e1, e2, e3, hitems, wsText]
  · apply String.ext
    simp only [String.data_append, List.append_assoc, jsonInd]
    rfl
  · exact fun h => List.noConfusion h

/-- `JSON.stringify(v, null, 2)` prints a non-empty plain workspace value as
its canonical strict text. -/
theorem stringify_wsJson (ps : List String) (hall : ps.all plainPath = true)
    (hne : ps ≠ []) : jsonStringify (wsJson ps) = wsText ps := by
  have h := stringify_wsJson_aux 996 ps hall hne
  rw [show (996 + 4 : Nat) = 1000 from rfl] at h
  exact h

/-- A character that is no closing bracket passes through the comma strip
with the flag down. -/
theorem stripStep_cons_safe {c : Char} (h1 : c ≠ '\x7d') (h2 : c ≠ ']')
    (X : List Char) : stripStep c (X, false) = (c :: X, false) := by
  simp only [stripStep, Bool.false_eq_true, and_false, if_false,
    if_neg (show ¬(c = '\x7d' ∨ c = ']') from fun h => h.elim h1 h2)]
  split <;> rfl

/-- A bracket-free segment passes through the comma strip unchanged, flag
down on both sides. -/
theorem foldr_strip_safe : ∀ l : List Char, (∀ c ∈ l, c ≠ '\x7d' ∧ c ≠ ']') →
    ∀ X, l.foldr stripStep (X, false) = (l ++ X, false) := by
  intro l
  induction l with
  | nil => intro _ X; rfl
  | cons c rest ih =>
    intro h X
    simp only [List.foldr_cons]
    rw [ih (fun d hd => h d (List.mem_cons_of_mem c hd)) X]
    exact stripStep_cons_safe (h c (List.mem_cons_self c rest)).1
      (h c (List.mem_cons_self c rest)).2 _

/-- Plain paths contain no closing bracket. -/
theorem plainPath_safe {p : String} (hp : plainPath p = true) :
    ∀ c ∈ p.data, c ≠ '\x7d' ∧ c ≠ ']' := by
  intro c hc
  have hall : p.data.all plainChar = true := by
    unfold plainPath at hp
    rcases hd : p.data with _ | ⟨x, rest⟩
    · rw [hd] at hp; exact absurd hp (Bool.false_ne_true)
    · rw [hd] at hp; exact hp
  have hcp : plainChar c = true := by
    rw [List.all_eq_true] at hall
    exact hall c hc
  exact ⟨plainChar_ne hcp (by decide), plainChar_ne hcp (by decide)⟩

/-- One serialized folder entry passes through the comma strip unchanged. -/
theorem strip_wsItemText (p : String) (hp : plainPath p = true) (X : List Char) :
    (wsItemText p).data.foldr stripStep (X, false)
      = ((wsItemText p).data ++ X, false) := by
  have hdata : (wsItemText p).data
      = "    \x7b\n      \"path\": \"".data
          ++ (p.data ++ "\"\n    \x7d".data) := by
    simp [wsItemText, String.data_append, List.append_assoc]
  rw [hdata, List.foldr_append, List.foldr_append]
  rw [show ("\"\n    \x7d".data.foldr stripStep (X, false))
      = ("\"\n    \x7d".data ++ X, false) from rfl]
  rw [foldr_strip_safe p.data (plainPath_safe hp) _]
  rw [show ∀ Y, ("    \x7b\n      \"path\": \"".data.foldr stripStep (Y, false))
      = ("    \x7b\n      \"path\": \"".data ++ Y, false) from fun Y => rfl]
  simp [List.append_assoc]

/-- The serialized folder entries pass through the comma strip unchanged. -/
theorem strip_wsItemsText : ∀ ps : List String, ps.all plainPath = true →
    ps ≠ [] → ∀ X : List Char,
    (wsItemsText ps).data.foldr stripStep (X, false)
      = ((wsItemsText ps).data ++ X, false) := by
  intro ps
  induction ps with
  | nil => intro _ hne; exact absurd rfl hne
  | cons p rest ih =>
    intro hall _ X
    simp only [List.all_cons, Bool.and_eq_true] at hall
    cases rest with
    | nil => exact strip_wsItemText p hall.1 X
    | cons q rest2 =>
      have hdata : (wsItemsText (p :: q :: rest2)).data
          = (wsItemText p).data
              ++ ([',', Char.ofNat 10] ++ (wsItemsText (q :: rest2)).data) := by
        simp [wsItemsText, String.data_append, List.append_assoc]
      rw [hdata, List.foldr_append, List.foldr_append]
      rw [ih hall.2 (List.cons_ne_nil q rest2) X]
      rw [show ∀ Y, ([',', Char.ofNat 10].foldr stripStep (Y, false))
          = (',' :: Char.ofNat 10 :: Y, false) from fun Y => rfl]
      rw [strip_wsItemText p hall.1 _]
      simp [List.append_assoc]

/-- The comma strip of `parseJsonc` turns the trailing-comma workspace text
into its strict serialization. -/
theorem strip_wsTextTC (ps : List String) (hall : ps.all plainPath = true)
    (hne : ps ≠ []) : stripTrailingCommas (wsTextTC ps) = wsText ps := by
  obtain ⟨p, rest, rfl⟩ : ∃ p rest, ps = p :: rest := by
    cases ps with
    | nil => exact absurd rfl hne
    | cons p rest => exact ⟨p, rest, rfl⟩
  have hsrc : (wsTextTC (p :: rest)).data
      = "\x7b\n  \"folders\": [\n".data
          ++ ((wsItemsText (p :: rest)).data ++ ",\n  ]\n\x7d".data) := by
    simp [wsTextTC, String.data_append, List.append_assoc]
  unfold stripTrailingCommas
  rw [hsrc, List.foldr_append, List.foldr_append]
  rw [show (",\n  ]\n\x7d".data.foldr stripStep (([], false) : List Char × Bool))
      = ("\n  ]\n\x7d".data, false) from rfl]
  rw [strip_wsItemsText (p :: rest) hall hne _]
  rw [show ∀ Y, ("\x7b\n  \"folders\": [\n".data.foldr stripStep (Y, false))
      = ("\x7b\n  \"folders\": [\n".data ++ Y, false) from fun Y => rfl]
  show (⟨_⟩ : String) = _
  rw [wsText]
  · apply String.ext
    simp [String.data_append, List.append_assoc]
  · exact fun h => List.noConfusion h

/-- The character suffix of one serialized folder entry after its opening
brace, as the parser walks it. -/
def wsItemCharsRest (p : String) : List Char :=
  "\n      \"path\": \"".data ++ p.data ++ "\"\n    \x7d".data

/-- One serialized folder entry, brace first. -/
def wsItemChars (p : String) : List Char := '\x7b' :: wsItemCharsRest p

/-- `parseStringBody` decodes a plain run up to the closing quote. -/
theorem parseStringBody_plain : ∀ l : List Char, (∀ c ∈ l, plainChar c = true) →
    ∀ tail, parseStringBody (l ++ '"' :: tail) = some (l, tail) := by
  intro l
  induction l with
  | nil =>
    intro _ tail
    rw [List.nil_append, parseStringBody.eq_def]
    simp
  | cons c rest ih =>
    intro h tail
    have hc := h c (List.mem_cons_self c rest)
    rw [List.cons_append, parseStringBody.eq_def]
    simp only [if_neg (plainChar_ne hc (show plainChar '"' = false by decide)),
      if_neg (plainChar_ne hc (show plainChar '\\' = false by decide)),
      ih (fun d hd => h d (List.mem_cons_of_mem c hd)) tail]
    rfl

/-- The character list of a plain path is all plain. -/
theorem plainPath_chars {p : String} (hp : plainPath p = true) :
    ∀ c ∈ p.data, plainChar c = true := by
  have hall : p.data.all plainChar = true := by
    unfold plainPath at hp
    rcases hd : p.data with _ | ⟨x, r⟩
    · rw [hd] at hp; exact absurd hp Bool.false_ne_true
    · rw [hd] at hp; exact hp
  rw [List.all_eq_true] at hall
  exact hall

/-- The parser reads one serialized folder entry as its object value. -/
theorem parse_wsItem (p : String) (f : Nat) (l tail : List Char)
    (hp : plainPath p = true)
    (hl : skipWs l = wsItemChars p ++ tail) :
    parseF (f + 3) PMode.value l = some (.val (wsFolderEntry p), tail) := by
  have hkey := parseStringBody_plain ['p', 'a', 't', 'h'] (by decide)
    (':' :: ' ' :: '"' :: (p.data ++ '"' ::
      ('\n' :: ' ' :: ' ' :: ' ' :: ' ' :: '\x7d' :: tail)))
  have hsb := parseStringBody_plain p.data (plainPath_chars hp)
    ('\n' :: ' ' :: ' ' :: ' ' :: ' ' :: '\x7d' :: tail)
  have hl2 : skipWs l = '\x7b' :: (wsItemCharsRest p ++ tail) := by
    rw [hl]; rfl
  have hskip : skipWs (wsItemCharsRest p ++ tail)
      = '"' :: (['p', 'a', 't', 'h'] ++ '"' :: (':' :: ' ' :: '"' ::
          (p.data ++ '"' :: ('\n' :: ' ' :: ' ' :: ' ' :: ' ' :: '\x7d' :: tail)))) := by
    simp only [wsItemCharsRest, List.append_assoc]
    rfl
  have hsw1 : ∀ X : List Char, skipWs ('"' :: X) = '"' :: X := fun X => rfl
  have hsw2 : ∀ X : List Char, skipWs (':' :: X) = ':' :: X := fun X => rfl
  have hsw3 : ∀ X : List Char, skipWs (' ' :: X) = skipWs X := fun X => rfl
  have hsw4 : skipWs ('\n' :: ' ' :: ' ' :: ' ' :: ' ' :: '\x7d' :: tail)
      = '\x7d' :: tail := rfl
  simp only [parseF, hl2, hskip, hkey, hsb, hsw1, hsw2, hsw3, hsw4,
    Option.map_some]
  rfl

/-- The stream between folder entries: a separator and the next entry, or
the array close and object close. -/
def wsItemsSep : List String → List Char
  | [] => ['\n', ' ', ' ', ']', '\n', '\x7d']
  | q :: rest => ',' :: '\n' :: ' ' :: ' ' :: ' ' :: ' ' ::
      (wsItemChars q ++ wsItemsSep rest)

/-- The character stream the parser sees from the first folder entry to the
end of the workspace text. -/
def wsItemsChars : List String → List Char
  | [] => []
  | p :: rest => wsItemChars p ++ wsItemsSep rest

/-- The parser reads the folder entries of the workspace stream as the list
of their object values, consuming the closing bracket. -/
theorem parse_wsItems : ∀ (ps : List String) (k : Nat) (l : List Char),
    ps ≠ [] → ps.all plainPath = true →
    skipWs l = wsItemsChars ps →
    parseF (ps.length + k + 4) PMode.items l
      = some (.items (ps.map wsFolderEntry), ['\n', '\x7d']) := by
  intro ps
  induction ps with
  | nil => intro k l hne; exact absurd rfl hne
  | cons p rest ih =>
    intro k l _ hall hl
    simp only [List.all_cons, Bool.and_eq_true] at hall
    simp only [wsItemsChars] at hl
    rw [show (p :: rest).length + k + 4 = ((p :: rest).length + k + 3) + 1 from rfl]
    cases rest with
    | nil =>
      have hval := parse_wsItem p ([p].length + k) l (wsItemsSep []) hall.1 hl
      conv_lhs => rw [parseF.eq_def]
      simp only [hval]
      rfl
    | cons q rest2 =>
      have hval := parse_wsItem p ((p :: q :: rest2).length + k) l
        (wsItemsSep (q :: rest2)) hall.1 hl
      conv_lhs => rw [parseF.eq_def]
      simp only [hval]
      have hsw : skipWs (wsItemsSep (q :: rest2))
          = ',' :: '\n' :: ' ' :: ' ' :: ' ' :: ' ' ::
              (wsItemChars q ++ wsItemsSep rest2) := rfl
      rw [hsw]
      have hfuel : (p :: q :: rest2).length + k + 3
          = (q :: rest2).length + k + 4 := by
        simp only [List.length_cons]
        omega
      rw [hfuel]
      have hr2 : skipWs ('\n' :: ' ' :: ' ' :: ' ' :: ' ' ::
          (wsItemChars q ++ wsItemsSep rest2)) = wsItemsChars (q :: rest2) := rfl
      simp only [ih k _ (List.cons_ne_nil q rest2) hall.2 hr2, List.map_cons]

/-- The parser reads the folders array of the workspace stream. -/
theorem parse_wsArr (ps : List String) (k : Nat) (l : List Char)
    (hne : ps ≠ []) (hall : ps.all plainPath = true)
    (hl : skipWs l = '[' :: '\n' :: (' ' :: ' ' :: ' ' :: ' ' :: wsItemsChars ps)) :
    parseF (ps.length + k + 5) PMode.value l
      = some (.val (.arr (ps.map wsFolderEntry)), ['\n', '\x7d']) := by
  obtain ⟨p, rest, rfl⟩ : ∃ p rest, ps = p :: rest := by
    cases ps with
    | nil => exact absurd rfl hne
    | cons p rest => exact ⟨p, rest, rfl⟩
  rw [show (p :: rest).length + k + 5 = ((p :: rest).length + k + 4) + 1 from rfl]
  conv_lhs => rw [parseF.eq_def]
  have hsw : skipWs ('\n' :: (' ' :: ' ' :: ' ' :: ' ' :: wsItemsChars (p :: rest)))
      = '\x7b' :: (wsItemCharsRest p ++ wsItemsSep rest) := rfl
  have hitems := parse_wsItems (p :: rest) k
    ('\x7b' :: (wsItemCharsRest p ++ wsItemsSep rest))
    (List.cons_ne_nil p rest) hall rfl
  simp only [hl, hsw, hitems]
  rfl

/-- The parser reads the folders field of the workspace stream, consuming
the closing brace. -/
theorem parse_wsFields (ps : List String) (k : Nat) (l : List Char)
    (hne : ps ≠ []) (hall : ps.all plainPath = true)
    (hl : skipWs l = '"' :: (['f', 'o', 'l', 'd', 'e', 'r', 's'] ++ ('"' :: ':' :: ' ' ::
      ('[' :: '\n' :: (' ' :: ' ' :: ' ' :: ' ' :: wsItemsChars ps))))) :
    parseF (ps.length + k + 6) PMode.fields l
      = some (.fields [("folders", .arr (ps.map wsFolderEntry))], []) := by
  rw [show ps.length + k + 6 = (ps.length + k + 5) + 1 from rfl]
  conv_lhs => rw [parseF.eq_def]
  have hkey := parseStringBody_plain ['f', 'o', 'l', 'd', 'e', 'r', 's'] (by decide)
    (':' :: ' ' :: ('[' :: '\n' :: (' ' :: ' ' :: ' ' :: ' ' :: wsItemsChars ps)))
  have hsw1 : ∀ X : List Char, skipWs (':' :: X) = ':' :: X := fun X => rfl
  have harr := parse_wsArr ps k
    (' ' :: ('[' :: '\n' :: (' ' :: ' ' :: ' ' :: ' ' :: wsItemsChars ps)))
    hne hall rfl
  have hsw2 : skipWs ('\n' :: '\x7d' :: []) = '\x7d' :: [] := rfl
  simp only [hl, hkey, hsw1, harr, hsw2]

/-- The serialized folder entries followed by the array and object close are
four spaces of indentation and the parser stream. -/
theorem wsItems_bridge : ∀ ps : List String, ps ≠ [] →
    (wsItemsText ps).data ++ "\n  ]\n\x7d".data
      = ' ' :: ' ' :: ' ' :: ' ' :: wsItemsChars ps := by
  intro ps
  induction ps with
  | nil => intro hne; exact absurd rfl hne
  | cons p rest ih =>
    intro _
    cases rest with
    | nil =>
      simp only [wsItemsText, wsItemText, wsItemsChars, wsItemChars,
        wsItemCharsRest, wsItemsSep, String.data_append, List.append_assoc,
        List.cons_append, List.nil_append]
    | cons q rest2 =>
      have hb := ih (List.cons_ne_nil q rest2)
      simp only [wsItemsText, String.data_append, List.append_assoc] at hb ⊢
      rw [hb]
      simp only [wsItemText, wsItemsChars, wsItemChars, wsItemCharsRest,
        wsItemsSep, String.data_append, List.append_assoc, List.cons_append,
        List.nil_append]

/-- Each folder path contributes at least one character to the serialized
entries. -/
theorem wsItems_len : ∀ ps : List String,
    ps.length ≤ (wsItemsText ps).data.length := by
  intro ps
  induction ps with
  | nil => simp [wsItemsText]
  | cons p rest ih =>
    cases rest with
    | nil =>
      simp [wsItemsText, wsItemText, String.data_append, List.length_append]
    | cons q rest2 =>
      simp only [wsItemsText, wsItemText, String.data_append,
        List.length_append, List.length_cons] at ih ⊢
      omega

/-- `JSON.parse` reads the strict workspace text as the workspace value. -/
theorem parse_wsText (ps : List String) (hall : ps.all plainPath = true)
    (hne : ps ≠ []) : jsonParse (wsText ps) = .ok (wsJson ps) := by
  obtain ⟨p, rest, rfl⟩ : ∃ p rest, ps = p :: rest := by
    cases ps with
    | nil => exact absurd rfl hne
    | cons p rest => exact ⟨p, rest, rfl⟩
  have hdata : (wsText (p :: rest)).data
      = '\x7b' :: ('\n' :: ' ' :: ' ' :: ('"' :: (['f', 'o', 'l', 'd', 'e', 'r', 's']
          ++ ('"' :: ':' :: ' ' :: ('[' :: '\n' :: (' ' :: ' ' :: ' ' :: ' ' ::
            wsItemsChars (p :: rest))))))) := by
    rw [wsText]
    · have hb := wsItems_bridge (p :: rest) (List.cons_ne_nil p rest)
      simp only [String.data_append, List.append_assoc]
      rw [hb]
      rfl
    · exact fun h => List.noConfusion h
  have hlen : (p :: rest).length ≤ (wsText (p :: rest)).data.length := by
    have h1 := wsItems_len (p :: rest)
    have h2 : (wsText (p :: rest)).data.length
        = 17 + ((wsItemsText (p :: rest)).data.length + 6) := by
      rw [wsText]
      · simp only [String.data_append, List.length_append]
        rw [show ("\x7b\n  \"folders\": [\n".data.length) = 17 from by decide,
          show ("\n  ]\n\x7d".data.length) = 6 from by decide]
        omega
      · exact fun h => List.noConfusion h
    omega
  unfold jsonParse
  generalize hN : (wsText (p :: rest)).data.length = N
  rw [hN] at hlen
  rw [show 2 * N + 8 = (2 * N + 7) + 1 from rfl]
  conv_lhs => rw [parseF.eq_def]
  have hsw0 : ∀ X : List Char, skipWs ('\x7b' :: X) = '\x7b' :: X := fun X => rfl
  have hswB : ∀ X : List Char, skipWs ('\n' :: ' ' :: ' ' :: '"' :: X)
      = '"' :: X := fun X => rfl
  have hfuel : 2 * N + 7
      = (p :: rest).length + (2 * N + 1 - (p :: rest).length) + 6 := by
    simp only [List.length_cons] at hlen ⊢
    omega
  have hflds := parse_wsFields (p :: rest) (2 * N + 1 - (p :: rest).length)
    ('"' :: (['f', 'o', 'l', 'd', 'e', 'r', 's'] ++ ('"' :: ':' :: ' ' ::
      ('[' :: '\n' :: (' ' :: ' ' :: ' ' :: ' ' :: wsItemsChars (p :: rest))))))
    (List.cons_ne_nil p rest) hall rfl
  simp only [hdata, hsw0, hswB, hfuel, hflds]
  rfl

/-- Relaxed parse of the trailing-comma workspace file: strip then strict
parse. -/
theorem parseJsonc_wsTextTC (ps : List String) (hall : ps.all plainPath = true)
    (hne : ps ≠ []) : parseJsonc (wsTextTC ps) = .ok (wsJson ps) := by
  unfold parseJsonc
  rw [strip_wsTextTC ps hall hne, parse_wsText ps hall hne]

/-- The workspace strategy on a trailing-comma workspace file with plain
folder paths not yet listing the extension: stages the one operation and
rewrites the file as the strict serialization with the entry appended. -/
theorem updateWorkspaceFile_wsTextTC (config : ExtensionConfig)
    (ps : List String) (hall : ps.all plainPath = true) (hne : ps ≠ [])
    (hmem : ("vscode/" ++ config.language) ∉ ps) :
    updateWorkspaceFile "repo" config false (fsWorkspaceTC ps) =
      (.ok [workspaceOp config.language],
       { files := [("repo/konveyor-extensions.code-workspace",
           jsonStringify (wsJson (ps ++ ["vscode/" ++ config.language])) ++ "\n")],
         dirs := [] }) := by
  have hex : (fsWorkspaceTC ps).pathExists
      (pathJoin "repo" "konveyor-extensions.code-workspace") = true := rfl
  have hlook : (fsWorkspaceTC ps).files.lookup
      (pathJoin "repo" "konveyor-extensions.code-workspace")
      = some (wsTextTC ps) := rfl
  have hpj := parseJsonc_wsTextTC ps hall hne
  have hfld : (wsJson ps).getField "folders"
      = some (.arr (ps.map wsFolderEntry)) := rfl
  have hany : (ps.map wsFolderEntry).any (fun f =>
      match f.getField "path" with
      | some (.str s) => s = "vscode/" ++ config.language
      | _ => false) = false := by
    rw [List.any_eq_false]
    intro f hf
    rw [List.mem_map] at hf
    obtain ⟨x, hx, rfl⟩ := hf
    have hxne : x ≠ "vscode/" ++ config.language := fun he => hmem (he ▸ hx)
    simp [wsFolderEntry, Json.getField, hxne]
  have hset : (wsJson ps).setField "folders"
      (.arr ((ps.map wsFolderEntry)
        ++ [.obj [("path", .str ("vscode/" ++ config.language))]]))
      = wsJson (ps ++ ["vscode/" ++ config.language]) := by
    simp [wsJson, Json.setField, setFieldList, List.map_append, wsFolderEntry]
  unfold updateWorkspaceFile
  simp only [M_run_bind_existsSync, M_run_ite, hex, if_true,
    M_run_bind_readFile, hlook, M_run_bind_ofExcept, hpj, hfld, hany, hset,
    Bool.not_false, if_true, M_run_bind_writeFile, M_run_bind_pure, M_run_pure]
  rfl

/-- The operations of the apply-mode pass over the hazard workspace file. -/
def patchWsHazardOps : List FileOperation :=
  match patchWsHazard.1 with
  | .ok ops => ops
  | .error _ => []

/-- The folder paths of the workspace file in a file tree, read back by a
strict parse. -/
def wsFoldersAfter (fs : FS) : Option (List String) :=
  match fs.files.lookup "repo/konveyor-extensions.code-workspace" with
  | none => none
  | some content =>
    match jsonParse content with
    | .ok j =>
      match j.getField "folders" with
      | some (.arr xs) =>
        some (xs.filterMap (fun f =>
          match f.getField "path" with
          | some (.str s) => some s
          | _ => none))
      | _ => none
    | .error _ => none

/-- C8 counterexample: the workspace file whose single folder path is the
string "x,]" is strict JSON — zero trailing commas, so it is in the claimed
domain — yet the strategy's global comma strip rewrites the comma inside the
string literal, and the apply-mode pass stages the workspace operation while
the re-serialized file holds the corrupted path "x]": the pre-existing folder
entry is not preserved. -/
theorem c8_relaxed_roundtrip_counterexample :
    jsonParse wsHazardContent = .ok (wsJson ["x,]"]) ∧
    patchWsHazardOps.map (fun o => o.path)
      = ["konveyor-extensions.code-workspace"] ∧
    wsFoldersAfter patchWsHazard.2 = some ["x]", "vscode/python"] :=
  ⟨rfl, rfl, rfl⟩

/-- C8 amended: restricted to workspace files whose folder paths contain no
quote, backslash, comma, bracket or whitespace characters, the round trip
holds — the strip turns the trailing-comma text into strict JSON, the
strategy parses it, appends exactly one folder entry for the extension and
rewrites the file as the strict two-space serialization with every
pre-existing entry preserved, and the written text parses back to exactly
the original folder list plus the one new entry. -/
theorem c8_relaxed_roundtrip_amended (config : ExtensionConfig)
    (ps : List String) (hall : ps.all plainPath = true) (hne : ps ≠ [])
    (hmem : ("vscode/" ++ config.language) ∉ ps)
    (hlang : plainPath ("vscode/" ++ config.language) = true) :
    parseJsonc (wsTextTC ps) = .ok (wsJson ps) ∧
    updateWorkspaceFile "repo" config false (fsWorkspaceTC ps) =
      (.ok [workspaceOp config.language],
       { files := [("repo/konveyor-extensions.code-workspace",
           wsText (ps ++ ["vscode/" ++ config.language]) ++ "\n")],
         dirs := [] }) ∧
    jsonParse (wsText (ps ++ ["vscode/" ++ config.language]))
      = .ok (wsJson (ps ++ ["vscode/" ++ config.language])) := by
  have hall2 : (ps ++ ["vscode/" ++ config.language]).all plainPath = true := by
    rw [List.all_append]
    simp [hall, hlang]
  have hne2 : ps ++ ["vscode/" ++ config.language] ≠ [] := by simp
  refine ⟨parseJsonc_wsTextTC ps hall hne, ?_, parse_wsText _ hall2 hne2⟩
  rw [updateWorkspaceFile_wsTextTC config ps hall hne hmem,
    stringify_wsJson _ hall2 hne2]

/-- C8 witness: the amended round trip on a one-folder trailing-comma
workspace file and the python extension. -/
theorem c8_relaxed_roundtrip_witness :
    parseJsonc (wsTextTC ["a/b"]) = .ok (wsJson ["a/b"]) ∧
    updateWorkspaceFile "repo" pythonConfig false (fsWorkspaceTC ["a/b"]) =
      (.ok [workspaceOp "python"],
       { files := [("repo/konveyor-extensions.code-workspace",
           wsText (["a/b"] ++ ["vscode/" ++ "python"]) ++ "\n")],
         dirs := [] }) ∧
    jsonParse (wsText (["a/b"] ++ ["vscode/" ++ "python"]))
      = .ok (wsJson (["a/b"] ++ ["vscode/" ++ "python"])) :=
  c8_relaxed_roundtrip_amended pythonConfig ["a/b"] (by decide) (by decide)
    (by decide) (by decide)
